import Mathlib

/-!
Verification of the occupancy-grid region-segmentation and spawn-sampling
subsystem of `home_platform/env.py`.

The grid is embedded as a list of rows of machine integers (`Int`, since the
source works with Python/numpy integers, which do not overflow).  Positions
are pairs of `Int` (the source indexes with Python ints and checks bounds
explicitly before every access, see line 67 of `env.py`).  Floating point
region areas, probabilities and coordinates are embedded as `Rat`: the source
only compares and accumulates them, and every claim under study is about the
comparison conventions, not about rounding.

The numpy random source (`np.random.random` / `np.random.randint`) is a
single global stream of draws; it is embedded as a function `Nat → Rat`
together with a cursor that advances once per consumed draw.
`np.random.randint(0, m)` consumes one draw `u` and yields `⌊u * m⌋` when
`m > 0`, and raises `ValueError` when `m = 0`; exceptions raised by numpy are
embedded as `Except NpError`.
-/

/-- A cell position `(i, j)`; the source uses Python int pairs. -/
abbrev Pos : Type := Int × Int

/-- A 2D integer array, row major, as produced by `np.atleast_2d`. -/
abbrev Grid : Type := List (List Int)

/-- Number of rows (`grid.shape[0]`). -/
def gridH (g : Grid) : Nat := g.length

/-- Number of columns (`grid.shape[1]`). -/
def gridW (g : Grid) : Nat := (g.headD []).length

/-- The grid is rectangular, as every numpy 2D array is. -/
def Rect (g : Grid) : Prop := ∀ row ∈ g, row.length = gridW g

instance : DecidablePred Rect := fun g => by unfold Rect; infer_instance

/-- Bounds check, source line 67: `ai >= 0 and ai < shape[0] and aj >= 0 and aj < shape[1]`. -/
def inB (g : Grid) (p : Pos) : Prop :=
  0 ≤ p.1 ∧ p.1 < (gridH g : Int) ∧ 0 ≤ p.2 ∧ p.2 < (gridW g : Int)

instance (g : Grid) (p : Pos) : Decidable (inB g p) := by
  unfold inB; infer_instance

/-- Read `grid[i, j]` (only ever used under a bounds check in the source). -/
def getC (g : Grid) (p : Pos) : Int := (g.getD p.1.toNat []).getD p.2.toNat 0

/-- Write `grid[i, j] = v`. -/
def setC (g : Grid) (p : Pos) (v : Int) : Grid :=
  g.set p.1.toNat ((g.getD p.1.toNat []).set p.2.toNat v)

/-- Lines 42-43: `occupacyGrid[occupacyGrid != 0] = -1` after the astype copy. -/
def maskOcc (g : Grid) : Grid :=
  g.map (List.map (fun v => if v ≠ 0 then -1 else v))

/-- All in-bounds positions in row-major (C) order: the order in which
`np.argwhere` reports indices. -/
def allPos (g : Grid) : List Pos :=
  (List.range (gridH g)).flatMap
    (fun i => (List.range (gridW g)).map (fun j => (Int.ofNat i, Int.ofNat j)))

/-- Number of cells equal to 0 (`np.count_nonzero(grid == 0)`, line 46). -/
def countZero (g : Grid) : Nat :=
  (allPos g).countP (fun p => decide (getC g p = 0))

/-- Row-major first unlabelled free cell: `tuple(np.argwhere(grid == 0)[0])`, line 54;
`none` when the loop guard `np.count_nonzero(grid == 0) > 0` fails. -/
def firstZero (g : Grid) : Option Pos :=
  (allPos g).find? (fun p => decide (getC g p = 0))

/-- The four neighbours pushed at line 64, in source order. -/
def nbrs (p : Pos) : List Pos :=
  [(p.1 + 1, p.2), (p.1 - 1, p.2), (p.1, p.2 + 1), (p.1, p.2 - 1)]

/-- Lexicographic order on index tuples: the order `heapq` pops them in. -/
def lexLt (p q : Pos) : Prop := p.1 < q.1 ∨ (p.1 = q.1 ∧ p.2 < q.2)

instance (p q : Pos) : Decidable (lexLt p q) := by
  unfold lexLt; infer_instance

/-- Lexicographically least element of a nonempty list (what `heapq.heappop`
returns for a heap of index tuples). -/
def minPos (h : Pos) (t : List Pos) : Pos :=
  t.foldl (fun a b => if lexLt b a then b else a) h

/-- Pop the least tuple off the heap, line 60. -/
def popMin : List Pos → Option (Pos × List Pos)
  | [] => none
  | h :: t => some (minPos h t, (h :: t).erase (minPos h t))

/-- Lines 67-71: bounds check, occupancy-and-redundancy check, push.
State is `(heap, visited)`. -/
def pushOne (g : Grid) (hv : List Pos × List Pos) (q : Pos) : List Pos × List Pos :=
  if inB g q ∧ getC g q = 0 ∧ q ∉ hv.2 then (q :: hv.1, q :: hv.2) else hv

/-- Line 64: push all four neighbours of the popped cell. -/
def pushNbrs (g : Grid) (p : Pos) (hv : List Pos × List Pos) : List Pos × List Pos :=
  (nbrs p).foldl (pushOne g) hv

/-- The inner grassfire loop, lines 58-71.  `fuel` is a structural bound on the
number of iterations; `fillFuel` below always suffices (each iteration pops one
cell, and each cell is pushed at most once thanks to the visited set). -/
def fillLoop : Nat → Grid → List Pos → List Pos → Int → Grid
  | 0, g, _, _, _ => g
  | fuel + 1, g, heap, visited, rid =>
    match popMin heap with
    | none => g
    | some (p, rest) =>
      let g' := setC g p rid
      let hv := pushNbrs g' p (rest, visited)
      fillLoop fuel g' hv.1 hv.2 rid

/-- Enough fuel for any run of the inner loop started from one seed. -/
def fillFuel (g : Grid) : Nat := 2 * (gridH g * gridW g) + 1

/-- The outer loop, lines 45-73: while an unlabelled free cell remains, seed a
new region at the row-major first one and grassfire-fill it. -/
def labelLoop : Nat → Grid → Int → Grid
  | 0, g, _ => g
  | fuel + 1, g, rid =>
    match firstZero g with
    | none => g
    | some s => labelLoop fuel (fillLoop (fillFuel g) g [s] [s] rid) (rid + 1)

/-- `extractAllRegions`, lines 41-78.  `np.atleast_2d(...).astype(np.int)` is
the identity on an integer 2D grid (up to the copy, which `extractAllRegionsProc`
below makes explicit). -/
def extractAllRegions (g0 : Grid) : Grid :=
  labelLoop (gridH g0 * gridW g0 + 1) (maskOcc g0) 1

/-- Two cells are 4-adjacent (share an edge). -/
def Adj (p q : Pos) : Prop := q ∈ nbrs p

/-- A path of 4-adjacent FREE cells of `g` from `p` to `q` (every cell stepped
into is in bounds and holds 0). -/
def FreePath (g : Grid) (p q : Pos) : Prop :=
  Relation.ReflTransGen (fun a b => Adj a b ∧ inB g b ∧ getC g b = 0) p q

section BasicLemmas

lemma gridH_set (g : Grid) (i : Nat) (r : List Int) : gridH (g.set i r) = gridH g := by
  simp [gridH]

lemma mem_allPos {g : Grid} {p : Pos} : p ∈ allPos g ↔ inB g p := by
  constructor
  · intro hp
    simp only [allPos, List.mem_flatMap, List.mem_map, List.mem_range] at hp
    obtain ⟨i, hi, j, hj, rfl⟩ := hp
    refine ⟨?_, ?_, ?_, ?_⟩ <;> simp [Int.ofNat_eq_coe] <;> omega
  · rintro ⟨h1, h2, h3, h4⟩
    simp only [allPos, List.mem_flatMap, List.mem_map, List.mem_range]
    refine ⟨p.1.toNat, by omega, p.2.toNat, by omega, ?_⟩
    simp only [Int.ofNat_eq_coe]
    rw [Int.toNat_of_nonneg h1, Int.toNat_of_nonneg h3]

lemma length_allPos (g : Grid) : (allPos g).length = gridH g * gridW g := by
  simp only [allPos]
  rw [List.length_flatMap]
  induction gridH g with
  | zero => simp
  | succ n ih =>
    rw [List.range_succ, List.map_append, List.sum_append]
    simp only [List.map_cons, List.map_nil, List.sum_cons, List.sum_nil]
    rw [ih]
    simp only [Function.comp_apply, List.length_map, List.length_range]
    ring

lemma pairwise_allPos (g : Grid) : (allPos g).Pairwise lexLt := by
  simp only [allPos]
  induction gridH g with
  | zero => simp
  | succ n ih =>
    rw [List.range_succ, List.flatMap_append]
    rw [List.pairwise_append]
    refine ⟨ih, ?_, ?_⟩
    · simp only [List.flatMap_cons, List.flatMap_nil, List.append_nil]
      refine List.Pairwise.map _ ?_ (List.pairwise_lt_range (gridW g))
      intro a b hab
      refine Or.inr ⟨rfl, ?_⟩
      show Int.ofNat a < Int.ofNat b
      simp only [Int.ofNat_eq_coe]
      exact_mod_cast hab
    · intro a ha b hb
      simp only [List.mem_flatMap, List.mem_map, List.mem_range] at ha
      simp only [List.flatMap_cons, List.flatMap_nil, List.append_nil,
        List.mem_map, List.mem_range] at hb
      obtain ⟨i, hi, j, _, rfl⟩ := ha
      obtain ⟨j', _, rfl⟩ := hb
      exact Or.inl (by simp [Int.ofNat_eq_coe]; omega)

lemma nodup_allPos (g : Grid) : (allPos g).Nodup := by
  refine (pairwise_allPos g).imp ?_
  intro a b h he
  subst he
  unfold lexLt at h
  omega

end BasicLemmas

section CellLemmas

lemma inB_of_dims {g g' : Grid} {p : Pos} (hH : gridH g' = gridH g)
    (hW : gridW g' = gridW g) : inB g p → inB g' p := by
  intro h
  unfold inB at *
  rw [hH, hW]
  exact h

lemma gridH_setC (g : Grid) (p : Pos) (v : Int) : gridH (setC g p v) = gridH g := by
  simp [setC, gridH]

lemma gridW_setC (g : Grid) (p : Pos) (v : Int) : gridW (setC g p v) = gridW g := by
  unfold setC gridW
  cases g with
  | nil => simp
  | cons h t =>
    cases hi : p.1.toNat with
    | zero => simp
    | succ n => simp

lemma getD_set_ne {α : Type} (l : List α) (i j : Nat) (a d : α) (h : i ≠ j) :
    (l.set i a).getD j d = l.getD j d := by
  simp [List.getD_eq_getElem?_getD, List.getElem?_set_ne h]

lemma getD_set_self {α : Type} (l : List α) (i : Nat) (a d : α) (h : i < l.length) :
    (l.set i a).getD i d = a := by
  simp [List.getD_eq_getElem?_getD, List.getElem?_set_self h]

lemma row_mem_of_lt {g : Grid} {i : Nat} (h : i < g.length) : g.getD i [] ∈ g := by
  rw [List.getD_eq_getElem?_getD, List.getElem?_eq_getElem h]
  exact List.getElem_mem h

lemma rect_setC {g : Grid} (hR : Rect g) (p : Pos) (v : Int) : Rect (setC g p v) := by
  by_cases hlt : p.1.toNat < g.length
  · intro row hrow
    rw [gridW_setC]
    rcases List.mem_or_eq_of_mem_set hrow with h | h
    · exact hR row h
    · subst h
      rw [List.length_set]
      exact hR _ (row_mem_of_lt hlt)
  · have he : setC g p v = g := List.set_eq_of_length_le (le_of_not_lt hlt)
    rw [he]
    exact fun row h => (gridW_setC g p v) ▸ hR row h

lemma getC_setC_eq {g : Grid} {p : Pos} (v : Int) (hR : Rect g) (hp : inB g p) :
    getC (setC g p v) p = v := by
  obtain ⟨h1, h2, h3, h4⟩ := hp
  have hi : p.1.toNat < g.length := by unfold gridH at h2; omega
  have hrow : (g.getD p.1.toNat []).length = gridW g := hR _ (row_mem_of_lt hi)
  have hj : p.2.toNat < (g.getD p.1.toNat []).length := by rw [hrow]; unfold gridW at *; omega
  unfold getC setC
  rw [getD_set_self _ _ _ _ hi, getD_set_self _ _ _ _ hj]

lemma getC_setC_ne {g : Grid} {p q : Pos} (v : Int) (hp : inB g p) (hq : inB g q)
    (hne : q ≠ p) : getC (setC g p v) q = getC g q := by
  obtain ⟨p1, p2, p3, p4⟩ := hp
  obtain ⟨q1, q2, q3, q4⟩ := hq
  unfold getC setC
  by_cases hrow : q.1.toNat = p.1.toNat
  · have hi : p.1.toNat < g.length := by unfold gridH at p2; omega
    have hcol : q.2.toNat ≠ p.2.toNat := by
      intro hc
      exact hne (Prod.ext (by omega) (by omega))
    rw [hrow, getD_set_self _ _ _ _ hi, getD_set_ne _ _ _ _ _ (fun h => hcol h.symm)]
  · rw [getD_set_ne _ _ _ _ _ (fun h => hrow h.symm)]

end CellLemmas

section MapGridLemmas

lemma gridH_mapGrid (f : Int → Int) (g : Grid) : gridH (g.map (List.map f)) = gridH g := by
  simp [gridH]

lemma gridW_mapGrid (f : Int → Int) (g : Grid) : gridW (g.map (List.map f)) = gridW g := by
  cases g with
  | nil => rfl
  | cons h t => simp [gridW]

lemma rect_mapGrid (f : Int → Int) {g : Grid} (hR : Rect g) : Rect (g.map (List.map f)) := by
  intro row hrow
  rw [gridW_mapGrid]
  obtain ⟨r, hr, rfl⟩ := List.mem_map.mp hrow
  rw [List.length_map]
  exact hR r hr

lemma getC_mapGrid (f : Int → Int) {g : Grid} {p : Pos} (hR : Rect g) (hp : inB g p) :
    getC (g.map (List.map f)) p = f (getC g p) := by
  obtain ⟨h1, h2, h3, h4⟩ := hp
  have hi : p.1.toNat < g.length := by unfold gridH at h2; omega
  have hrow : (g.getD p.1.toNat []).length = gridW g := hR _ (row_mem_of_lt hi)
  have hj : p.2.toNat < (g.getD p.1.toNat []).length := by rw [hrow]; unfold gridW at *; omega
  have hi' : p.1.toNat < (g.map (List.map f)).length := by rw [List.length_map]; exact hi
  unfold getC
  rw [List.getD_eq_getElem _ _ hi', List.getElem_map]
  have hg : g[p.1.toNat] = g.getD p.1.toNat [] := (List.getD_eq_getElem _ _ hi).symm
  rw [hg]
  have hj' : p.2.toNat < (List.map f (g.getD p.1.toNat [])).length := by
    rw [List.length_map]; exact hj
  rw [List.getD_eq_getElem _ _ hj', List.getElem_map, List.getD_eq_getElem _ _ hj]

lemma getC_maskOcc {g : Grid} {p : Pos} (hR : Rect g) (hp : inB g p) :
    getC (maskOcc g) p = if getC g p = 0 then 0 else -1 := by
  unfold maskOcc
  rw [getC_mapGrid _ hR hp]
  by_cases h : getC g p = 0 <;> simp [h]

end MapGridLemmas

section FirstZeroLemmas

lemma find?_pairwise_min {l : List Pos} {f : Pos → Bool} {s : Pos}
    (hp : l.Pairwise lexLt) (h : l.find? f = some s) :
    ∀ t ∈ l, f t → s = t ∨ lexLt s t := by
  induction l with
  | nil => simp at h
  | cons a l ih =>
    by_cases ha : f a
    · rw [List.find?_cons_of_pos _ ha] at h
      injection h with h
      subst h
      intro t ht _
      rcases List.mem_cons.mp ht with h | h
      · exact Or.inl h.symm
      · exact Or.inr (List.rel_of_pairwise_cons hp h)
    · rw [List.find?_cons_of_neg _ ha] at h
      intro t ht hft
      rcases List.mem_cons.mp ht with rfl | hmem
      · exact absurd hft ha
      · exact ih (List.Pairwise.of_cons hp) h t hmem hft

lemma firstZero_some {g : Grid} {s : Pos} (h : firstZero g = some s) :
    inB g s ∧ getC g s = 0 := by
  refine ⟨mem_allPos.mp (List.mem_of_find?_eq_some h), ?_⟩
  have := List.find?_some h
  simpa using this

lemma firstZero_min {g : Grid} {s : Pos} (h : firstZero g = some s) :
    ∀ t, inB g t → getC g t = 0 → s = t ∨ lexLt s t := by
  intro t ht h0
  exact find?_pairwise_min (pairwise_allPos g) h t (mem_allPos.mpr ht) (by simpa using h0)

lemma firstZero_none {g : Grid} (h : firstZero g = none) :
    ∀ p, inB g p → getC g p ≠ 0 := by
  intro p hp h0
  have := List.find?_eq_none.mp h p (mem_allPos.mpr hp)
  simp [h0] at this

end FirstZeroLemmas

section PopMinLemmas

lemma minPos_mem : ∀ (t : List Pos) (h : Pos), minPos h t ∈ h :: t := by
  intro t
  induction t with
  | nil => intro h; simp [minPos]
  | cons b t ih =>
    intro h
    have ih' := ih (if lexLt b h then b else h)
    unfold minPos at ih' ⊢
    simp only [List.foldl_cons]
    rcases List.mem_cons.mp ih' with h' | h'
    · rw [h']
      by_cases hb : lexLt b h <;> simp [hb]
    · right; right; exact h'

lemma popMin_none {heap : List Pos} : popMin heap = none ↔ heap = [] := by
  cases heap <;> simp [popMin]

lemma popMin_some {heap : List Pos} {p : Pos} {rest : List Pos}
    (h : popMin heap = some (p, rest)) : p ∈ heap ∧ rest = heap.erase p := by
  cases heap with
  | nil => simp [popMin] at h
  | cons a t =>
    simp only [popMin, Option.some.injEq, Prod.mk.injEq] at h
    obtain ⟨h1, h2⟩ := h
    exact ⟨h1 ▸ minPos_mem t a, by rw [← h1, ← h2]⟩

end PopMinLemmas

section PathLemmas

lemma adj_symm {p q : Pos} (h : Adj p q) : Adj q p := by
  simp only [Adj, nbrs, List.mem_cons, List.not_mem_nil, or_false] at h ⊢
  rcases h with rfl | rfl | rfl | rfl
  · exact Or.inr (Or.inl (Prod.ext (by omega) rfl))
  · exact Or.inl (Prod.ext (by omega) rfl)
  · exact Or.inr (Or.inr (Or.inr (Prod.ext rfl (by omega))))
  · exact Or.inr (Or.inr (Or.inl (Prod.ext rfl (by omega))))

lemma freePath_endpoint {g : Grid} {p q : Pos} (h : FreePath g p q) :
    p = q ∨ (inB g q ∧ getC g q = 0) := by
  induction h with
  | refl => exact Or.inl rfl
  | tail _ hbc _ => exact Or.inr ⟨hbc.2.1, hbc.2.2⟩

lemma freePath_symm {g : Grid} {p q : Pos} (hp : inB g p) (h0 : getC g p = 0)
    (h : FreePath g p q) : FreePath g q p := by
  induction h with
  | refl => exact Relation.ReflTransGen.refl
  | tail hab hbc ih =>
    rename_i b c
    refine Relation.ReflTransGen.head ⟨adj_symm hbc.1, ?_, ?_⟩ ih
    · rcases freePath_endpoint hab with rfl | hb
      · exact hp
      · exact hb.1
    · rcases freePath_endpoint hab with rfl | hb
      · exact h0
      · exact hb.2

lemma freePath_congr {g g' : Grid} (hB : ∀ x, inB g x ↔ inB g' x)
    (h0 : ∀ x, inB g x → (getC g x = 0 ↔ getC g' x = 0)) {p q : Pos} :
    FreePath g p q → FreePath g' p q := by
  refine Relation.ReflTransGen.mono ?_
  rintro a b ⟨ha, hb, hz⟩
  exact ⟨ha, (hB b).mp hb, (h0 b hb).mp hz⟩

end PathLemmas

section FillMachinery

/-- Termination measure of the inner loop: one pop costs one unit of heap, one
push moves an unvisited cell into the visited set. -/
def fillM (gin : Grid) (heap visited : List Pos) : Nat :=
  heap.length + 2 * ((allPos gin).countP (fun q => decide (q ∉ visited)))

lemma countP_not_mem_cons {l v : List Pos} {q : Pos} (hl : l.Nodup) (hq : q ∈ l)
    (hqv : q ∉ v) :
    l.countP (fun x => decide (x ∉ q :: v)) + 1 = l.countP (fun x => decide (x ∉ v)) := by
  induction l with
  | nil => simp at hq
  | cons a l ih =>
    rw [List.countP_cons, List.countP_cons]
    rcases List.mem_cons.mp hq with heq | hmem
    · have hav : a ∉ v := heq ▸ hqv
      rw [heq]
      have ha : (decide (a ∉ a :: v)) = false := by simp
      have ha' : (decide (a ∉ v)) = true := by simpa using hav
      rw [ha, ha']
      have hcong : l.countP (fun x => decide (x ∉ a :: v)) = l.countP (fun x => decide (x ∉ v)) := by
        refine List.countP_congr ?_
        intro x hx
        have hxa : x ≠ a := fun h => (List.nodup_cons.mp hl).1 (h ▸ hx)
        simp [List.mem_cons, hxa]
      rw [hcong]
      simp
    · have hqa : q ≠ a := fun h => (List.nodup_cons.mp hl).1 (h ▸ hmem)
      have hiff : (a ∉ q :: v) ↔ (a ∉ v) := by
        constructor
        · intro h hc
          exact h (List.mem_cons_of_mem _ hc)
        · intro h hc
          rcases List.mem_cons.mp hc with h' | h'
          · exact hqa h'.symm
          · exact h h'
      have hde : (decide (a ∉ q :: v)) = (decide (a ∉ v)) := decide_eq_decide.mpr hiff
      rw [hde]
      have := ih (List.nodup_cons.mp hl).2 hmem
      omega

lemma pushOne_visited_mono (g : Grid) (hv : List Pos × List Pos) (q x : Pos)
    (hx : x ∈ hv.2) : x ∈ (pushOne g hv q).2 := by
  unfold pushOne
  split <;> simp [hx]

lemma pushOne_heap_mono (g : Grid) (hv : List Pos × List Pos) (q x : Pos)
    (hx : x ∈ hv.1) : x ∈ (pushOne g hv q).1 := by
  unfold pushOne
  split <;> simp [hx]

lemma fold_visited_mono (g : Grid) (l : List Pos) (hv : List Pos × List Pos) (x : Pos)
    (hx : x ∈ hv.2) : x ∈ (l.foldl (pushOne g) hv).2 := by
  induction l generalizing hv with
  | nil => exact hx
  | cons a l ih => exact ih _ (pushOne_visited_mono g hv a x hx)

lemma fold_heap_mono (g : Grid) (l : List Pos) (hv : List Pos × List Pos) (x : Pos)
    (hx : x ∈ hv.1) : x ∈ (l.foldl (pushOne g) hv).1 := by
  induction l generalizing hv with
  | nil => exact hx
  | cons a l ih => exact ih _ (pushOne_heap_mono g hv a x hx)

lemma fold_new_mem (g : Grid) (l : List Pos) (hv : List Pos × List Pos) (x : Pos)
    (hx : x ∈ (l.foldl (pushOne g) hv).2) :
    x ∈ hv.2 ∨ (x ∈ l ∧ inB g x ∧ getC g x = 0 ∧ x ∉ hv.2) := by
  induction l generalizing hv with
  | nil => exact Or.inl hx
  | cons a l ih =>
    rcases ih (pushOne g hv a) hx with h | ⟨h1, h2, h3, h4⟩
    · unfold pushOne at h
      by_cases hc : inB g a ∧ getC g a = 0 ∧ a ∉ hv.2
      · rw [if_pos hc] at h
        rcases List.mem_cons.mp h with rfl | h
        · exact Or.inr ⟨List.mem_cons_self _ _, hc⟩
        · exact Or.inl h
      · rw [if_neg hc] at h
        exact Or.inl h
    · have h4' : x ∉ hv.2 := fun hc => h4 (pushOne_visited_mono g hv a x hc)
      exact Or.inr ⟨List.mem_cons_of_mem _ h1, h2, h3, h4'⟩

lemma fold_new_in_heap (g : Grid) (l : List Pos) (hv : List Pos × List Pos) (x : Pos)
    (hx : x ∈ (l.foldl (pushOne g) hv).2) (hnot : x ∉ hv.2) :
    x ∈ (l.foldl (pushOne g) hv).1 := by
  induction l generalizing hv with
  | nil => exact absurd hx hnot
  | cons a l ih =>
    rw [List.foldl_cons] at hx ⊢
    by_cases hmem : x ∈ (pushOne g hv a).2
    · have hstep : x ∈ (pushOne g hv a).1 := by
        unfold pushOne at hmem ⊢
        by_cases hc : inB g a ∧ getC g a = 0 ∧ a ∉ hv.2
        · rw [if_pos hc] at hmem ⊢
          rcases List.mem_cons.mp hmem with heq | h
          · rw [heq]
            exact List.mem_cons_self _ _
          · exact absurd h hnot
        · rw [if_neg hc] at hmem
          exact absurd hmem hnot
      exact fold_heap_mono g l _ x hstep
    · exact ih (pushOne g hv a) hx hmem

lemma fold_heap_from (g : Grid) (l : List Pos) (hv : List Pos × List Pos) (x : Pos)
    (hx : x ∈ (l.foldl (pushOne g) hv).1) :
    x ∈ hv.1 ∨ (x ∈ (l.foldl (pushOne g) hv).2 ∧ x ∉ hv.2) := by
  induction l generalizing hv with
  | nil => exact Or.inl hx
  | cons a l ih =>
    rcases ih (pushOne g hv a) hx with h | ⟨h1, h2⟩
    · unfold pushOne at h
      by_cases hc : inB g a ∧ getC g a = 0 ∧ a ∉ hv.2
      · rw [if_pos hc] at h
        rcases List.mem_cons.mp h with rfl | h
        · refine Or.inr ⟨fold_visited_mono g l _ x ?_, hc.2.2⟩
          unfold pushOne
          rw [if_pos hc]
          exact List.mem_cons_self _ _
        · exact Or.inl h
      · rw [if_neg hc] at h
        exact Or.inl h
    · refine Or.inr ⟨h1, fun hc => h2 (pushOne_visited_mono g hv a x hc)⟩

lemma fold_covers (g : Grid) (l : List Pos) (hv : List Pos × List Pos) (x : Pos)
    (hx : x ∈ l) (hB : inB g x) (h0 : getC g x = 0) :
    x ∈ (l.foldl (pushOne g) hv).2 := by
  induction l generalizing hv with
  | nil => simp at hx
  | cons a l ih =>
    rcases List.mem_cons.mp hx with rfl | hmem
    · by_cases hv2 : x ∈ hv.2
      · exact fold_visited_mono g l _ x (pushOne_visited_mono g hv x x hv2)
      · refine fold_visited_mono g l _ x ?_
        unfold pushOne
        rw [if_pos ⟨hB, h0, hv2⟩]
        exact List.mem_cons_self _ _
    · exact ih (pushOne g hv a) hmem

lemma fold_nodup (g : Grid) (l : List Pos) (hv : List Pos × List Pos)
    (hn : hv.1.Nodup) (hsub : ∀ q ∈ hv.1, q ∈ hv.2) :
    (l.foldl (pushOne g) hv).1.Nodup ∧
      ∀ q ∈ (l.foldl (pushOne g) hv).1, q ∈ (l.foldl (pushOne g) hv).2 := by
  induction l generalizing hv with
  | nil => exact ⟨hn, hsub⟩
  | cons a l ih =>
    refine ih (pushOne g hv a) ?_ ?_
    · unfold pushOne
      by_cases hc : inB g a ∧ getC g a = 0 ∧ a ∉ hv.2
      · rw [if_pos hc]
        exact List.nodup_cons.mpr ⟨fun h => hc.2.2 (hsub a h), hn⟩
      · rw [if_neg hc]; exact hn
    · unfold pushOne
      by_cases hc : inB g a ∧ getC g a = 0 ∧ a ∉ hv.2
      · rw [if_pos hc]
        intro q hq
        rcases List.mem_cons.mp hq with rfl | h
        · exact List.mem_cons_self _ _
        · exact List.mem_cons_of_mem _ (hsub q h)
      · rw [if_neg hc]; exact hsub

lemma fold_measure (gin g : Grid) (hH : gridH g = gridH gin) (hW : gridW g = gridW gin)
    (l : List Pos) (hv : List Pos × List Pos) :
    fillM gin (l.foldl (pushOne g) hv).1 (l.foldl (pushOne g) hv).2 ≤
      fillM gin hv.1 hv.2 := by
  induction l generalizing hv with
  | nil => exact le_refl _
  | cons a l ih =>
    refine le_trans (ih (pushOne g hv a)) ?_
    unfold pushOne
    by_cases hc : inB g a ∧ getC g a = 0 ∧ a ∉ hv.2
    · rw [if_pos hc]
      unfold fillM
      have hmem : a ∈ allPos gin := mem_allPos.mpr (inB_of_dims hH.symm hW.symm hc.1)
      have := countP_not_mem_cons (l := allPos gin) (v := hv.2) (nodup_allPos gin) hmem hc.2.2
      simp only [List.length_cons]
      omega
    · rw [if_neg hc]

end FillMachinery

section FillInvariant

/-- Invariant of the inner grassfire loop relating the current state to the
grid `gin` as it was when the fill of the region seeded at `s` started. -/
def FillInv (gin : Grid) (s : Pos) (rid : Int) (g : Grid) (heap visited : List Pos) : Prop :=
  gridH g = gridH gin ∧ gridW g = gridW gin ∧ Rect g ∧
  heap.Nodup ∧ s ∈ visited ∧
  (∀ q ∈ heap, q ∈ visited) ∧
  (∀ q ∈ visited, inB gin q ∧ getC gin q = 0 ∧ FreePath gin s q) ∧
  (∀ q ∈ heap, getC g q = 0) ∧
  (∀ q ∈ visited, q ∉ heap → getC g q = rid) ∧
  (∀ q, inB gin q → q ∉ visited → getC g q = getC gin q) ∧
  (∀ a ∈ visited, a ∉ heap → ∀ b, Adj a b → inB gin b → getC gin b = 0 → b ∈ visited)

/-- What the fill of the region seeded at `s` leaves behind: the whole
4-connected free component of `s` is labelled `rid`, everything else is
untouched. -/
def FillPost (gin : Grid) (s : Pos) (rid : Int) (gres : Grid) : Prop :=
  gridH gres = gridH gin ∧ gridW gres = gridW gin ∧ Rect gres ∧
  (∀ q, inB gin q → getC gin q = 0 → FreePath gin s q → getC gres q = rid) ∧
  (∀ q, inB gin q → ¬(getC gin q = 0 ∧ FreePath gin s q) → getC gres q = getC gin q)

lemma fillInv_step (gin : Grid) (s : Pos) (rid : Int) (g : Grid)
    (heap visited : List Pos) (p : Pos) (rest : List Pos)
    (hpop : popMin heap = some (p, rest)) (I : FillInv gin s rid g heap visited) :
    FillInv gin s rid (setC g p rid) (pushNbrs (setC g p rid) p (rest, visited)).1
        (pushNbrs (setC g p rid) p (rest, visited)).2 ∧
      fillM gin (pushNbrs (setC g p rid) p (rest, visited)).1
        (pushNbrs (setC g p rid) p (rest, visited)).2 < fillM gin heap visited := by
  obtain ⟨hH, hW, hRect, hNd, hs, hhv, hvis, hhz, hlab, hun, hcl⟩ := I
  obtain ⟨hp_mem, hr⟩ := popMin_some hpop
  have hpvis : p ∈ visited := hhv p hp_mem
  have hpB : inB gin p := (hvis p hpvis).1
  have hp0gin : getC gin p = 0 := (hvis p hpvis).2.1
  have hpPath : FreePath gin s p := (hvis p hpvis).2.2
  have hpBg : inB g p := inB_of_dims hH hW hpB
  have hH' : gridH (setC g p rid) = gridH gin := by rw [gridH_setC]; exact hH
  have hW' : gridW (setC g p rid) = gridW gin := by rw [gridW_setC]; exact hW
  have hRect' : Rect (setC g p rid) := rect_setC hRect p rid
  have hgp : getC (setC g p rid) p = rid := getC_setC_eq rid hRect hpBg
  have hgne : ∀ x, inB gin x → x ≠ p → getC (setC g p rid) x = getC g x :=
    fun x hx hne => getC_setC_ne rid hpBg (inB_of_dims hH hW hx) hne
  have hrNd : rest.Nodup := hr ▸ hNd.erase p
  have hrmem : ∀ q, q ∈ rest ↔ (q ≠ p ∧ q ∈ heap) := fun q => hr ▸ hNd.mem_erase_iff
  have hrlen : rest.length = heap.length - 1 := hr ▸ List.length_erase_of_mem hp_mem
  have hrsub : ∀ q ∈ rest, q ∈ visited := fun q hq => hhv q ((hrmem q).mp hq).2
  -- facts about newly visited cells
  have hnew : ∀ x ∈ (pushNbrs (setC g p rid) p (rest, visited)).2, x ∉ visited →
      x ≠ p ∧ inB gin x ∧ getC gin x = 0 ∧ FreePath gin s x ∧
        getC (setC g p rid) x = 0 ∧ Adj p x := by
    intro x hx hxv
    rcases fold_new_mem _ _ _ _ hx with h | ⟨h1, h2, h3, h4⟩
    · exact absurd h hxv
    · have hxp : x ≠ p := fun he => hxv (he ▸ hpvis)
      have hxB : inB gin x := inB_of_dims hH'.symm hW'.symm h2
      have hx0 : getC gin x = 0 := by
        rw [← hun x hxB hxv, ← hgne x hxB hxp]
        exact h3
      exact ⟨hxp, hxB, hx0, hpPath.tail ⟨h1, hxB, hx0⟩, h3, h1⟩
  have hnodup := fold_nodup (setC g p rid) (nbrs p) (rest, visited) hrNd hrsub
  constructor
  · refine ⟨hH', hW', hRect', hnodup.1, fold_visited_mono _ _ _ _ hs, hnodup.2, ?_, ?_, ?_, ?_, ?_⟩
    · -- visited cells are free cells of gin reachable from s
      intro q hq
      by_cases hqv : q ∈ visited
      · exact hvis q hqv
      · obtain ⟨_, h2, h3, h4, _, _⟩ := hnew q hq hqv
        exact ⟨h2, h3, h4⟩
    · -- heap cells still hold 0
      intro q hq
      rcases fold_heap_from _ _ _ _ hq with h | ⟨h1, h2⟩
      · have hq' := (hrmem q).mp h
        have hqB : inB gin q := (hvis q (hhv q hq'.2)).1
        rw [hgne q hqB hq'.1]
        exact hhz q hq'.2
      · exact (hnew q h1 h2).2.2.2.2.1
    · -- visited minus heap cells are labelled rid
      intro q hq hqh
      by_cases hqv : q ∈ visited
      · by_cases hqp : q = p
        · rw [hqp]; exact hgp
        · have hqrest : q ∉ rest := fun hc => hqh (fold_heap_mono _ _ _ _ hc)
          have hqheap : q ∉ heap := fun hc => hqrest ((hrmem q).mpr ⟨hqp, hc⟩)
          rw [hgne q (hvis q hqv).1 hqp]
          exact hlab q hqv hqheap
      · exact absurd (fold_new_in_heap _ _ _ _ hq hqv) hqh
    · -- unvisited cells untouched
      intro q hqB hqv
      have hqv' : q ∉ visited := fun hc => hqv (fold_visited_mono _ _ _ _ hc)
      have hqp : q ≠ p := fun he => hqv' (he ▸ hpvis)
      rw [hgne q hqB hqp]
      exact hun q hqB hqv'
    · -- closure of labelled cells
      intro a ha hah b hab hbB hb0
      by_cases hav : a ∈ visited
      · by_cases hap : a = p
        · subst hap
          by_cases hbv : b ∈ visited
          · exact fold_visited_mono _ _ _ _ hbv
          · have hbp : b ≠ a := fun he => hbv (he ▸ hpvis)
            have hb0' : getC (setC g a rid) b = 0 := by
              rw [hgne b hbB hbp, hun b hbB hbv]
              exact hb0
            exact fold_covers _ _ _ b hab (inB_of_dims hH'.symm.symm hW'.symm.symm hbB) hb0'
          
        · have harest : a ∉ rest := fun hc => hah (fold_heap_mono _ _ _ _ hc)
          have haheap : a ∉ heap := fun hc => harest ((hrmem a).mpr ⟨hap, hc⟩)
          exact fold_visited_mono _ _ _ _ (hcl a hav haheap b hab hbB hb0)
      · exact absurd (fold_new_in_heap _ _ _ _ ha hav) hah
  · -- the measure strictly decreases
    have h1 := fold_measure gin (setC g p rid) hH' hW' (nbrs p) (rest, visited)
    have hpos : 0 < heap.length := List.length_pos_of_mem hp_mem
    unfold pushNbrs
    unfold fillM at h1 ⊢
    simp only at h1 ⊢
    omega

end FillInvariant

section FillDone

lemma fillInv_done {gin : Grid} {s : Pos} {rid : Int} {g : Grid} {visited : List Pos}
    (I : FillInv gin s rid g [] visited) : FillPost gin s rid g := by
  obtain ⟨hH, hW, hRect, _, hs, _, hvis, _, hlab, hun, hcl⟩ := I
  have hComp : ∀ q, FreePath gin s q → q ∈ visited := by
    intro q hpath
    induction hpath with
    | refl => exact hs
    | tail _ hbc ih => exact hcl _ ih (List.not_mem_nil _) _ hbc.1 hbc.2.1 hbc.2.2
  refine ⟨hH, hW, hRect, ?_, ?_⟩
  · intro q _ _ hpath
    exact hlab q (hComp q hpath) (List.not_mem_nil _)
  · intro q hqB hnot
    refine hun q hqB ?_
    intro hqv
    exact hnot ⟨(hvis q hqv).2.1, (hvis q hqv).2.2⟩

lemma fillLoop_post (gin : Grid) (s : Pos) (rid : Int) :
    ∀ (fuel : Nat) (g : Grid) (heap visited : List Pos),
      FillInv gin s rid g heap visited → fillM gin heap visited ≤ fuel →
      FillPost gin s rid (fillLoop fuel g heap visited rid) := by
  intro fuel
  induction fuel with
  | zero =>
    intro g heap visited I hM
    have hlen : heap.length = 0 := by unfold fillM at hM; omega
    have he : heap = [] := List.length_eq_zero.mp hlen
    subst he
    exact fillInv_done I
  | succ n ih =>
    intro g heap visited I hM
    cases hpop : popMin heap with
    | none =>
      have he : heap = [] := popMin_none.mp hpop
      subst he
      simp only [fillLoop, popMin]
      exact fillInv_done I
    | some pr =>
      obtain ⟨p, rest⟩ := pr
      obtain ⟨I', hlt⟩ := fillInv_step gin s rid g heap visited p rest hpop I
      have hstep : fillLoop (n + 1) g heap visited rid =
          fillLoop n (setC g p rid) (pushNbrs (setC g p rid) p (rest, visited)).1
            (pushNbrs (setC g p rid) p (rest, visited)).2 rid := by
        simp only [fillLoop, hpop]
      rw [hstep]
      exact ih _ _ _ I' (by omega)

/-- Initial invariant: the fill starts with the seed alone on the heap and in
the visited set. -/
lemma fillInv_init {g : Grid} {s : Pos} (rid : Int) (hRect : Rect g)
    (hsB : inB g s) (hs0 : getC g s = 0) : FillInv g s rid g [s] [s] := by
  refine ⟨rfl, rfl, hRect, List.nodup_singleton s, List.mem_singleton_self s, ?_, ?_, ?_, ?_, ?_, ?_⟩
  · intro q hq; exact hq
  · intro q hq
    rw [List.mem_singleton.mp hq]
    exact ⟨hsB, hs0, Relation.ReflTransGen.refl⟩
  · intro q hq
    rw [List.mem_singleton.mp hq]
    exact hs0
  · intro q hq hq2
    exact absurd hq hq2
  · intro q _ _
    rfl
  · intro a ha ha2
    exact absurd ha ha2

lemma fillM_init_le (g : Grid) (s : Pos) : fillM g [s] [s] ≤ fillFuel g := by
  unfold fillM fillFuel
  have h1 : (allPos g).countP (fun q => decide (q ∉ [s])) ≤ (allPos g).length :=
    List.countP_le_length _
  rw [length_allPos] at h1
  simp only [List.length_singleton]
  omega

end FillDone

section LoopHelpers

lemma allPos_congr {g g' : Grid} (hH : gridH g = gridH g') (hW : gridW g = gridW g') :
    allPos g = allPos g' := by
  unfold allPos
  rw [hH, hW]

lemma countP_lt {α : Type} (l : List α) (f f' : α → Bool)
    (hmono : ∀ x ∈ l, f' x = true → f x = true)
    (hwit : ∃ x ∈ l, f x = true ∧ f' x = false) :
    l.countP f' < l.countP f := by
  induction l with
  | nil => obtain ⟨x, hx, _⟩ := hwit; simp at hx
  | cons a l ih =>
    rw [List.countP_cons, List.countP_cons]
    obtain ⟨x, hx, hfx, hfx'⟩ := hwit
    rcases List.mem_cons.mp hx with rfl | hmem
    · have hle : l.countP f' ≤ l.countP f := by
        refine List.countP_mono_left ?_
        intro y hy hfy
        exact hmono y (List.mem_cons_of_mem _ hy) hfy
      rw [hfx, hfx']
      rw [if_pos rfl, if_neg (by simp)]
      omega
    · have hlt : l.countP f' < l.countP f :=
        ih (fun y hy hfy => hmono y (List.mem_cons_of_mem _ hy) hfy) ⟨x, hmem, hfx, hfx'⟩
      by_cases ha : f' a = true
      · rw [ha, hmono a (List.mem_cons_self _ _) ha]
        omega
      · have ha' : f' a = false := by simpa using ha
        rw [ha']
        simp only [Bool.false_eq_true, if_false]
        omega

end LoopHelpers

section LoopInvariant

/-- Invariant of the outer labelling loop: `g1` is the masked grid the loop
started from (occupied cells `-1`, free cells `0`), `g` the current grid and
`rid` the next region id to assign. -/
def LoopInv (g1 g : Grid) (rid : Int) : Prop :=
  gridH g = gridH g1 ∧ gridW g = gridW g1 ∧ Rect g ∧ 1 ≤ rid ∧
  (∀ p, inB g1 p → (getC g p = -1 ↔ getC g1 p = -1)) ∧
  (∀ p, inB g1 p → getC g p = -1 ∨ getC g p = 0 ∨ (1 ≤ getC g p ∧ getC g p < rid)) ∧
  (∀ p q, inB g1 p → getC g1 p = 0 → FreePath g1 p q → getC g p = getC g q) ∧
  (∀ p q, inB g1 p → inB g1 q → 1 ≤ getC g p → getC g p = getC g q → FreePath g1 p q) ∧
  (∀ k : Int, 1 ≤ k → k < rid → ∃ p, inB g1 p ∧ getC g p = k) ∧
  (∀ p q, inB g1 p → inB g1 q → getC g1 p = 0 → getC g1 q = 0 → 1 ≤ getC g p →
    (getC g q = 0 ∨ getC g p < getC g q) →
    ∃ w, FreePath g1 p w ∧ ∀ t, FreePath g1 q t → lexLt w t)

lemma loopInv_zero_transfer {g1 g : Grid} {rid : Int} (hg1 : ∀ p, inB g1 p →
    getC g1 p = -1 ∨ getC g1 p = 0) (I : LoopInv g1 g rid) :
    ∀ p, inB g1 p → getC g p = 0 → getC g1 p = 0 := by
  obtain ⟨_, _, _, _, hm1, _, _, _, _, _⟩ := I
  intro p hp h0
  rcases hg1 p hp with h | h
  · rw [← (hm1 p hp)] at h
    omega
  · exact h

lemma loopInv_pos_transfer {g1 g : Grid} {rid : Int} (hg1 : ∀ p, inB g1 p →
    getC g1 p = -1 ∨ getC g1 p = 0) (I : LoopInv g1 g rid) :
    ∀ p, inB g1 p → 1 ≤ getC g p → getC g1 p = 0 := by
  obtain ⟨_, _, _, _, hm1, _, _, _, _, _⟩ := I
  intro p hp h1
  rcases hg1 p hp with h | h
  · rw [← (hm1 p hp)] at h
    omega
  · exact h

end LoopInvariant

section LoopStep

lemma loopInv_step (g1 : Grid) (hg1 : ∀ p, inB g1 p → getC g1 p = -1 ∨ getC g1 p = 0)
    {g : Grid} {rid : Int} (I : LoopInv g1 g rid) {s : Pos} (hfz : firstZero g = some s) :
    LoopInv g1 (fillLoop (fillFuel g) g [s] [s] rid) (rid + 1) ∧
      countZero (fillLoop (fillFuel g) g [s] [s] rid) < countZero g := by
  have hzt := loopInv_zero_transfer hg1 I
  obtain ⟨hH, hW, hRect, hrid, hm1, hrange, hU, hV, hAtt, hOrd⟩ := I
  obtain ⟨hsB, hs0⟩ := firstZero_some hfz
  have hsB1 : inB g1 s := inB_of_dims hH.symm hW.symm hsB
  have hs01 : getC g1 s = 0 := hzt s hsB1 hs0
  have hP := fillLoop_post g s rid (fillFuel g) g [s] [s]
    (fillInv_init rid hRect hsB hs0) (fillM_init_le g s)
  set gF := fillLoop (fillFuel g) g [s] [s] rid with hgFdef
  obtain ⟨hFH, hFW, hFRect, hPin, hPout⟩ := hP
  have hB1g : ∀ x : Pos, inB g1 x → inB g x := fun _ hx => inB_of_dims hH hW hx
  have hBg1 : ∀ x : Pos, inB g x → inB g1 x := fun _ hx => inB_of_dims hH.symm hW.symm hx
  have hT3 : ∀ x y : Pos, FreePath g x y → FreePath g1 x y := by
    intro x y hxy
    refine Relation.ReflTransGen.mono ?_ hxy
    rintro a b ⟨hab, hbB, hb0⟩
    exact ⟨hab, hBg1 b hbB, hzt b (hBg1 b hbB) hb0⟩
  have hUzero : ∀ x y : Pos, inB g1 x → getC g x = 0 → FreePath g1 x y → getC g y = 0 := by
    intro x y hx h0 hp
    rw [← hU x y hx (hzt x hx h0) hp]
    exact h0
  have hT4 : ∀ x y : Pos, inB g1 x → getC g x = 0 → FreePath g1 x y → FreePath g x y := by
    intro x y hx h0 hp
    induction hp with
    | refl => exact Relation.ReflTransGen.refl
    | tail hxb hbc ih =>
      rename_i b c
      exact ih.tail ⟨hbc.1, hB1g c hbc.2.1, hUzero x c hx h0 (hxb.tail hbc)⟩
  have hCmp : ∀ x : Pos, FreePath g1 s x → getC g x = 0 ∧ FreePath g s x :=
    fun x hx => ⟨hUzero s x hsB1 hs0 hx, hT4 s x hsB1 hs0 hx⟩
  have hgFin : ∀ q : Pos, inB g1 q → FreePath g1 s q → getC gF q = rid :=
    fun q hq hp => hPin q (hB1g q hq) (hCmp q hp).1 (hCmp q hp).2
  have hgFout : ∀ q : Pos, inB g1 q → ¬ FreePath g1 s q → getC gF q = getC g q :=
    fun q hq hnp => hPout q (hB1g q hq) (fun hc => hnp (hT3 s q hc.2))
  have hgFrange : ∀ p : Pos, inB g1 p →
      getC gF p = -1 ∨ getC gF p = 0 ∨ (1 ≤ getC gF p ∧ getC gF p ≤ rid) := by
    intro p hp
    by_cases hpath : FreePath g1 s p
    · rw [hgFin p hp hpath]
      right; right; omega
    · rw [hgFout p hp hpath]
      rcases hrange p hp with h | h | h
      · exact Or.inl h
      · exact Or.inr (Or.inl h)
      · exact Or.inr (Or.inr ⟨h.1, by omega⟩)
  constructor
  · refine ⟨hFH.trans hH, hFW.trans hW, hFRect, by omega, ?_, ?_, ?_, ?_, ?_, ?_⟩
    · -- OCCUPIED_MARK cells are exactly those of the masked grid
      intro p hp
      by_cases hpath : FreePath g1 s p
      · rw [hgFin p hp hpath]
        constructor
        · intro h; exact absurd h (by omega)
        · intro h
          exfalso
          have := hzt p hp (hCmp p hpath).1
          omega
      · rw [hgFout p hp hpath]
        exact hm1 p hp
    · -- value range
      intro p hp
      rcases hgFrange p hp with h | h | h
      · exact Or.inl h
      · exact Or.inr (Or.inl h)
      · exact Or.inr (Or.inr ⟨h.1, by omega⟩)
    · -- cells of one free component share one value
      intro p q hp hp0 hpq
      rcases freePath_endpoint hpq with rfl | ⟨hqB, hq0⟩
      · rfl
      · by_cases hsp : FreePath g1 s p
        · rw [hgFin p hp hsp, hgFin q hqB (hsp.trans hpq)]
        · have hsq : ¬ FreePath g1 s q :=
            fun hc => hsp (hc.trans (freePath_symm hp (by exact hp0) hpq))
          rw [hgFout p hp hsp, hgFout q hqB hsq]
          exact hU p q hp hp0 hpq
    · -- equal positive values only within one component
      intro p q hp hq h1 heq
      by_cases hsp : FreePath g1 s p <;> by_cases hsq : FreePath g1 s q
      · exact (freePath_symm hsB1 hs01 hsp).trans hsq
      · exfalso
        rw [hgFin p hp hsp, hgFout q hq hsq] at heq
        rcases hrange q hq with h | h | h <;> omega
      · exfalso
        rw [hgFout p hp hsp, hgFin q hq hsq] at heq
        rw [hgFout p hp hsp] at h1
        rcases hrange p hp with h | h | h <;> omega
      · rw [hgFout p hp hsp] at h1 heq
        rw [hgFout q hq hsq] at heq
        exact hV p q hp hq h1 heq
    · -- every id below the next one is attained
      intro k h1 hk
      by_cases hkr : k = rid
      · exact ⟨s, hsB1, by rw [hkr]; exact hgFin s hsB1 Relation.ReflTransGen.refl⟩
      · obtain ⟨p, hpB, hpv⟩ := hAtt k h1 (by omega)
        refine ⟨p, hpB, ?_⟩
        have hnp : ¬ FreePath g1 s p := by
          intro hc
          have := (hCmp p hc).1
          omega
        rw [hgFout p hpB hnp, hpv]
    · -- smaller ids came from lexicographically earlier seeds
      intro p q hp hq hp0 hq0 h1 hcase
      by_cases hsp : FreePath g1 s p
      · have hgFp : getC gF p = rid := hgFin p hp hsp
        have hq0F : getC gF q = 0 := by
          rcases hcase with h | h
          · exact h
          · exfalso
            rcases hgFrange q hq with hr | hr | hr <;> omega
        have hsq : ¬ FreePath g1 s q := by
          intro hc
          rw [hgFin q hq hc] at hq0F
          omega
        have hgq : getC g q = 0 := by rw [← hgFout q hq hsq]; exact hq0F
        refine ⟨s, freePath_symm hsB1 hs01 hsp, ?_⟩
        intro t ht
        have htB : inB g1 t := by
          rcases freePath_endpoint ht with rfl | ⟨h, _⟩
          · exact hq
          · exact h
        have htg : getC g t = 0 := hUzero q t hq hgq ht
        rcases firstZero_min hfz t (hB1g t htB) htg with heq | hlt
        · exfalso
          rw [← heq] at ht
          exact hsq (freePath_symm hq hq0 ht)
        · exact hlt
      · have hgFp : getC gF p = getC g p := hgFout p hp hsp
        have h1' : 1 ≤ getC g p := by rw [← hgFp]; exact h1
        have hcase' : getC g q = 0 ∨ getC g p < getC g q := by
          by_cases hsq : FreePath g1 s q
          · exact Or.inl (hCmp q hsq).1
          · rw [hgFout q hq hsq, hgFp] at hcase
            exact hcase
        exact hOrd p q hp hq hp0 hq0 h1' hcase'
  · -- the number of unlabelled free cells strictly decreases
    have hAP : allPos gF = allPos g := allPos_congr hFH hFW
    unfold countZero
    rw [hAP]
    refine countP_lt _ _ _ ?_ ?_
    · intro x hxmem hx0
      have hxB1 : inB g1 x := hBg1 x (mem_allPos.mp hxmem)
      simp only [decide_eq_true_eq] at hx0 ⊢
      by_cases hsx : FreePath g1 s x
      · exfalso
        rw [hgFin x hxB1 hsx] at hx0
        omega
      · rw [← hgFout x hxB1 hsx]
        exact hx0
    · refine ⟨s, mem_allPos.mpr hsB, ?_, ?_⟩
      · simp [hs0]
      · rw [hgFin s hsB1 Relation.ReflTransGen.refl]
        simp
        omega

end LoopStep

section LoopMaster

lemma loopInv_init (g1 : Grid) (hRect : Rect g1)
    (hg1 : ∀ p, inB g1 p → getC g1 p = -1 ∨ getC g1 p = 0) : LoopInv g1 g1 1 := by
  refine ⟨rfl, rfl, hRect, le_refl 1, fun p _ => Iff.rfl, ?_, ?_, ?_, ?_, ?_⟩
  · intro p hp
    rcases hg1 p hp with h | h
    · exact Or.inl h
    · exact Or.inr (Or.inl h)
  · intro p q _ hp0 hpq
    rcases freePath_endpoint hpq with rfl | ⟨_, hq0⟩
    · rfl
    · rw [hp0, hq0]
  · intro p q hp _ h1 _
    exfalso
    rcases hg1 p hp with h | h <;> omega
  · intro k h1 hk
    exact absurd hk (by omega)
  · intro p q hp _ hp0 _ h1 _
    exfalso
    omega

lemma labelLoop_post (g1 : Grid) (hg1 : ∀ p, inB g1 p → getC g1 p = -1 ∨ getC g1 p = 0) :
    ∀ (fuel : Nat) (g : Grid) (rid : Int), LoopInv g1 g rid → countZero g < fuel →
    ∃ ridF, LoopInv g1 (labelLoop fuel g rid) ridF ∧
      ∀ p, inB g1 p → getC (labelLoop fuel g rid) p ≠ 0 := by
  intro fuel
  induction fuel with
  | zero =>
    intro g rid I hM
    exact absurd hM (by omega)
  | succ n ih =>
    intro g rid I hM
    cases hfz : firstZero g with
    | none =>
      have hstep : labelLoop (n + 1) g rid = g := by simp only [labelLoop, hfz]
      rw [hstep]
      refine ⟨rid, I, ?_⟩
      intro p hp
      exact firstZero_none hfz p (inB_of_dims I.1 I.2.1 hp)
    | some s =>
      obtain ⟨I', hdec⟩ := loopInv_step g1 hg1 I hfz
      have hstep : labelLoop (n + 1) g rid =
          labelLoop n (fillLoop (fillFuel g) g [s] [s] rid) (rid + 1) := by
        simp only [labelLoop, hfz]
      rw [hstep]
      exact ih _ _ I' (by omega)

lemma maskOcc_values (g0 : Grid) (hR : Rect g0) :
    ∀ p, inB (maskOcc g0) p → getC (maskOcc g0) p = -1 ∨ getC (maskOcc g0) p = 0 := by
  intro p hp
  have hp0 : inB g0 p := inB_of_dims (gridH_mapGrid _ g0).symm (gridW_mapGrid _ g0).symm hp
  rw [getC_maskOcc hR hp0]
  by_cases h : getC g0 p = 0 <;> simp [h]

lemma extract_post (g0 : Grid) (hR : Rect g0) :
    ∃ ridF, LoopInv (maskOcc g0) (extractAllRegions g0) ridF ∧
      ∀ p, inB (maskOcc g0) p → getC (extractAllRegions g0) p ≠ 0 := by
  have hRm : Rect (maskOcc g0) := rect_mapGrid _ hR
  have hg1 := maskOcc_values g0 hR
  refine labelLoop_post (maskOcc g0) hg1 _ _ 1 (loopInv_init _ hRm hg1) ?_
  have hle : countZero (maskOcc g0) ≤ (allPos (maskOcc g0)).length := List.countP_le_length _
  have e1 : gridH (maskOcc g0) = gridH g0 := gridH_mapGrid _ g0
  have e2 : gridW (maskOcc g0) = gridW g0 := gridW_mapGrid _ g0
  rw [length_allPos, e1, e2] at hle
  omega

lemma inB_maskOcc (g0 : Grid) : ∀ p, inB (maskOcc g0) p ↔ inB g0 p := by
  intro p
  constructor
  · exact inB_of_dims (gridH_mapGrid _ g0).symm (gridW_mapGrid _ g0).symm
  · exact inB_of_dims (gridH_mapGrid _ g0) (gridW_mapGrid _ g0)

lemma maskOcc_zero_iff (g0 : Grid) (hR : Rect g0) {p : Pos} (hp : inB g0 p) :
    getC (maskOcc g0) p = 0 ↔ getC g0 p = 0 := by
  rw [getC_maskOcc hR hp]
  by_cases h : getC g0 p = 0 <;> simp [h]

lemma freePath_maskOcc (g0 : Grid) (hR : Rect g0) {p q : Pos} :
    FreePath (maskOcc g0) p q ↔ FreePath g0 p q := by
  constructor
  · refine freePath_congr (fun x => (inB_maskOcc g0 x)) ?_
    intro x hx
    exact maskOcc_zero_iff g0 hR ((inB_maskOcc g0 x).mp hx)
  · refine freePath_congr (fun x => (inB_maskOcc g0 x).symm) ?_
    intro x hx
    exact (maskOcc_zero_iff g0 hR hx).symm

/-- Full characterisation of `extractAllRegions` over the input grid. -/
lemma extract_full (g0 : Grid) (hR : Rect g0) :
    ∃ R : Int, 0 ≤ R ∧
      gridH (extractAllRegions g0) = gridH g0 ∧
      gridW (extractAllRegions g0) = gridW g0 ∧
      Rect (extractAllRegions g0) ∧
      (∀ p, inB g0 p → getC g0 p ≠ 0 → getC (extractAllRegions g0) p = -1) ∧
      (∀ p, inB g0 p → getC g0 p = 0 →
        1 ≤ getC (extractAllRegions g0) p ∧ getC (extractAllRegions g0) p ≤ R) ∧
      (∀ k : Int, 1 ≤ k → k ≤ R → ∃ p, inB g0 p ∧ getC (extractAllRegions g0) p = k) ∧
      (∀ p q, inB g0 p → inB g0 q → getC g0 p = 0 → getC g0 q = 0 →
        (getC (extractAllRegions g0) p = getC (extractAllRegions g0) q ↔ FreePath g0 p q)) ∧
      (∀ p q, inB g0 p → inB g0 q → 1 ≤ getC (extractAllRegions g0) p →
        getC (extractAllRegions g0) p < getC (extractAllRegions g0) q →
        ∃ w, FreePath g0 p w ∧ ∀ t, FreePath g0 q t → lexLt w t) := by
  obtain ⟨ridF, I, hnz⟩ := extract_post g0 hR
  have hg1 := maskOcc_values g0 hR
  have hzt := loopInv_zero_transfer hg1 I
  have hpt := loopInv_pos_transfer hg1 I
  obtain ⟨hH, hW, hRect, hrid, hm1, hrange, hU, hV, hAtt, hOrd⟩ := I
  set L := extractAllRegions g0 with hLdef
  have hBm : ∀ p : Pos, inB g0 p → inB (maskOcc g0) p := fun p hp => (inB_maskOcc g0 p).mpr hp
  have e1 : gridH (maskOcc g0) = gridH g0 := gridH_mapGrid _ g0
  have e2 : gridW (maskOcc g0) = gridW g0 := gridW_mapGrid _ g0
  refine ⟨ridF - 1, by omega, ?_, ?_, hRect, ?_, ?_, ?_, ?_, ?_⟩
  · rw [hH, e1]
  · rw [hW, e2]
  · -- occupied cells map to -1
    intro p hp hocc
    refine (hm1 p (hBm p hp)).mpr ?_
    rw [getC_maskOcc hR hp, if_neg hocc]
  · -- free cells map into 1..R
    intro p hp hfree
    have hmz : getC (maskOcc g0) p = 0 := (maskOcc_zero_iff g0 hR hp).mpr hfree
    have hne : getC L p ≠ 0 := hnz p (hBm p hp)
    have hnm : getC L p ≠ -1 := by
      intro hc
      have := (hm1 p (hBm p hp)).mp hc
      omega
    rcases hrange p (hBm p hp) with h | h | h
    · exact absurd h hnm
    · exact absurd h hne
    · exact ⟨h.1, by omega⟩
  · -- every label in 1..R is attained
    intro k h1 hk
    obtain ⟨p, hpB, hpv⟩ := hAtt k h1 (by omega)
    exact ⟨p, (inB_maskOcc g0 p).mp hpB, hpv⟩
  · -- same label iff connected by a free path
    intro p q hp hq hp0 hq0
    have hmp : getC (maskOcc g0) p = 0 := (maskOcc_zero_iff g0 hR hp).mpr hp0
    constructor
    · intro heq
      have h1 : 1 ≤ getC L p := by
        have hne : getC L p ≠ 0 := hnz p (hBm p hp)
        have hnm : getC L p ≠ -1 := by
          intro hc
          have := (hm1 p (hBm p hp)).mp hc
          omega
        rcases hrange p (hBm p hp) with h | h | h
        · exact absurd h hnm
        · exact absurd h hne
        · exact h.1
      exact (freePath_maskOcc g0 hR).mp (hV p q (hBm p hp) (hBm q hq) h1 heq)
    · intro hpath
      exact hU p q (hBm p hp) hmp ((freePath_maskOcc g0 hR).mpr hpath)
  · -- order of labels follows the row-major order of their seeds
    intro p q hp hq h1 hlt
    have hmp : getC (maskOcc g0) p = 0 := hpt p (hBm p hp) h1
    have h1q : 1 ≤ getC L q := by omega
    have hmq : getC (maskOcc g0) q = 0 := hpt q (hBm q hq) h1q
    obtain ⟨w, hw1, hw2⟩ := hOrd p q (hBm p hp) (hBm q hq) hmp hmq h1 (Or.inr hlt)
    refine ⟨w, (freePath_maskOcc g0 hR).mp hw1, ?_⟩
    intro t ht
    exact hw2 t ((freePath_maskOcc g0 hR).mpr ht)

end LoopMaster

section SmallGridHelpers

lemma inB_one_one {v : Int} {p : Pos} (hp : inB [[v]] p) : p = ((0 : Int), (0 : Int)) := by
  obtain ⟨a, b, c, d⟩ := hp
  have h1 : gridH [[v]] = 1 := rfl
  have h2 : gridW [[v]] = 1 := rfl
  rw [h1] at b
  rw [h2] at d
  refine Prod.ext ?_ ?_ <;> simp at b d ⊢ <;> omega

end SmallGridHelpers

/-- C4: on a non-empty binary occupancy grid, `extractAllRegions` sends every
OCCUPIED (non-zero) cell to `-1`, every FREE (zero) cell to a positive label,
and two FREE cells carry the same label iff a path of 4-adjacent FREE cells of
the original grid connects them. -/
theorem c4_label_iff_connected (g0 : Grid) (hR : Rect g0)
    (hH : 0 < gridH g0) (hW : 0 < gridW g0)
    (hbin : ∀ p, inB g0 p → getC g0 p = 0 ∨ getC g0 p = 1) :
    (∀ p, inB g0 p → getC g0 p ≠ 0 → getC (extractAllRegions g0) p = -1) ∧
    (∀ p, inB g0 p → getC g0 p = 0 → 1 ≤ getC (extractAllRegions g0) p) ∧
    (∀ p q, inB g0 p → inB g0 q → getC g0 p = 0 → getC g0 q = 0 →
      (getC (extractAllRegions g0) p = getC (extractAllRegions g0) q ↔ FreePath g0 p q)) := by
  obtain ⟨R, _, _, _, _, hocc, hfree, _, hiff, _⟩ := extract_full g0 hR
  exact ⟨hocc, fun p hp h0 => (hfree p hp h0).1, hiff⟩

theorem c4_witness :
    (Rect [[(0 : Int)]] ∧ 0 < gridH [[(0 : Int)]] ∧ 0 < gridW [[(0 : Int)]] ∧
      (∀ p, inB [[(0 : Int)]] p → getC [[(0 : Int)]] p = 0 ∨ getC [[(0 : Int)]] p = 1)) ∧
    ((∀ p, inB [[(0 : Int)]] p → getC [[(0 : Int)]] p ≠ 0 →
        getC (extractAllRegions [[(0 : Int)]]) p = -1) ∧
      (∀ p, inB [[(0 : Int)]] p → getC [[(0 : Int)]] p = 0 →
        1 ≤ getC (extractAllRegions [[(0 : Int)]]) p) ∧
      (∀ p q, inB [[(0 : Int)]] p → inB [[(0 : Int)]] q → getC [[(0 : Int)]] p = 0 →
        getC [[(0 : Int)]] q = 0 →
        (getC (extractAllRegions [[(0 : Int)]]) p = getC (extractAllRegions [[(0 : Int)]]) q ↔
          FreePath [[(0 : Int)]] p q))) := by
  have hbin : ∀ p, inB [[(0 : Int)]] p → getC [[(0 : Int)]] p = 0 ∨ getC [[(0 : Int)]] p = 1 := by
    intro p hp
    rw [inB_one_one hp]
    left
    rfl
  exact ⟨⟨by decide, by decide, by decide, hbin⟩,
    c4_label_iff_connected [[(0 : Int)]] (by decide) (by decide) (by decide) hbin⟩

/-- C5: after `extractAllRegions` completes on a non-empty binary grid, every
cell is either OCCUPIED_MARK (`-1`) or a positive label; no cell retains the
unvisited sentinel `0`, including on an all-occupied grid. -/
theorem c5_coverage (g0 : Grid) (hR : Rect g0)
    (hH : 0 < gridH g0) (hW : 0 < gridW g0)
    (hbin : ∀ p, inB g0 p → getC g0 p = 0 ∨ getC g0 p = 1) :
    ∀ p, inB g0 p → getC (extractAllRegions g0) p = -1 ∨
      1 ≤ getC (extractAllRegions g0) p := by
  obtain ⟨R, _, _, _, _, hocc, hfree, _, _, _⟩ := extract_full g0 hR
  intro p hp
  by_cases h0 : getC g0 p = 0
  · exact Or.inr (hfree p hp h0).1
  · exact Or.inl (hocc p hp h0)

theorem c5_witness :
    (Rect [[(1 : Int)]] ∧ 0 < gridH [[(1 : Int)]] ∧ 0 < gridW [[(1 : Int)]] ∧
      (∀ p, inB [[(1 : Int)]] p → getC [[(1 : Int)]] p = 0 ∨ getC [[(1 : Int)]] p = 1)) ∧
    (∀ p, inB [[(1 : Int)]] p → getC (extractAllRegions [[(1 : Int)]]) p = -1 ∨
      1 ≤ getC (extractAllRegions [[(1 : Int)]]) p) := by
  have hbin : ∀ p, inB [[(1 : Int)]] p → getC [[(1 : Int)]] p = 0 ∨ getC [[(1 : Int)]] p = 1 := by
    intro p hp
    rw [inB_one_one hp]
    right
    rfl
  exact ⟨⟨by decide, by decide, by decide, hbin⟩,
    c5_coverage [[(1 : Int)]] (by decide) (by decide) (by decide) hbin⟩

/-- C7: the positive labels used by `extractAllRegions` on a non-empty binary
grid are exactly the contiguous range `1..R` for some `R ≥ 0`, and labels are
assigned in the order the regions' seed cells appear in a row-major scan: a
region with a smaller label contains a cell that lexicographically precedes
every cell of any region with a larger label. -/
theorem c7_label_contiguity (g0 : Grid) (hR : Rect g0)
    (hH : 0 < gridH g0) (hW : 0 < gridW g0)
    (hbin : ∀ p, inB g0 p → getC g0 p = 0 ∨ getC g0 p = 1) :
    ∃ R : Int, 0 ≤ R ∧
      (∀ p, inB g0 p → getC (extractAllRegions g0) p = -1 ∨
        (1 ≤ getC (extractAllRegions g0) p ∧ getC (extractAllRegions g0) p ≤ R)) ∧
      (∀ k : Int, 1 ≤ k → k ≤ R → ∃ p, inB g0 p ∧ getC (extractAllRegions g0) p = k) ∧
      (∀ p q, inB g0 p → inB g0 q → 1 ≤ getC (extractAllRegions g0) p →
        getC (extractAllRegions g0) p < getC (extractAllRegions g0) q →
        ∃ w, FreePath g0 p w ∧ ∀ t, FreePath g0 q t → lexLt w t) := by
  obtain ⟨R, hR0, _, _, _, hocc, hfree, hatt, _, hord⟩ := extract_full g0 hR
  refine ⟨R, hR0, ?_, hatt, hord⟩
  intro p hp
  by_cases h0 : getC g0 p = 0
  · exact Or.inr (hfree p hp h0)
  · exact Or.inl (hocc p hp h0)

theorem c7_witness :
    (Rect [[(0 : Int)]] ∧ 0 < gridH [[(0 : Int)]] ∧ 0 < gridW [[(0 : Int)]] ∧
      (∀ p, inB [[(0 : Int)]] p → getC [[(0 : Int)]] p = 0 ∨ getC [[(0 : Int)]] p = 1)) ∧
    (∃ R : Int, 0 ≤ R ∧
      (∀ p, inB [[(0 : Int)]] p → getC (extractAllRegions [[(0 : Int)]]) p = -1 ∨
        (1 ≤ getC (extractAllRegions [[(0 : Int)]]) p ∧
          getC (extractAllRegions [[(0 : Int)]]) p ≤ R)) ∧
      (∀ k : Int, 1 ≤ k → k ≤ R →
        ∃ p, inB [[(0 : Int)]] p ∧ getC (extractAllRegions [[(0 : Int)]]) p = k) ∧
      (∀ p q, inB [[(0 : Int)]] p → inB [[(0 : Int)]] q →
        1 ≤ getC (extractAllRegions [[(0 : Int)]]) p →
        getC (extractAllRegions [[(0 : Int)]]) p < getC (extractAllRegions [[(0 : Int)]]) q →
        ∃ w, FreePath [[(0 : Int)]] p w ∧ ∀ t, FreePath [[(0 : Int)]] q t → lexLt w t)) := by
  have hbin : ∀ p, inB [[(0 : Int)]] p → getC [[(0 : Int)]] p = 0 ∨ getC [[(0 : Int)]] p = 1 := by
    intro p hp
    rw [inB_one_one hp]
    left
    rfl
  exact ⟨⟨by decide, by decide, by decide, hbin⟩,
    c7_label_contiguity [[(0 : Int)]] (by decide) (by decide) (by decide) hbin⟩

/-- Lines 41-43 with the Python object heap made explicit: arrays live in a
store addressed by indices, the caller passes a pointer to its occupancy grid,
and `occupacyGrid = np.atleast_2d(occupacyGrid).astype(np.int)` rebinds the
local name to a freshly allocated copy (`astype` copies by default), so every
write of the labelling pass (the masking at line 43 and the region ids at
line 61) targets the fresh array only. -/
def extractAllRegionsProc (store : List Grid) (ptr : Nat) : List Grid × Nat :=
  (store ++ [extractAllRegions (store.getD ptr [])], store.length)

/-- C9: `extractAllRegions` never mutates the caller's input array: every
array the store held before the call is unchanged after it, and the result
pointer addresses a fresh array holding the label grid computed from the
input. -/
theorem c9_input_not_mutated (store : List Grid) (ptr : Nat) :
    (∀ k, k < store.length →
      (extractAllRegionsProc store ptr).1.getD k [] = store.getD k []) ∧
    (extractAllRegionsProc store ptr).1.getD (extractAllRegionsProc store ptr).2 [] =
      extractAllRegions (store.getD ptr []) := by
  constructor
  · intro k hk
    unfold extractAllRegionsProc
    simp only
    rw [List.getD_eq_getElem?_getD, List.getElem?_append, if_pos hk, ← List.getD_eq_getElem?_getD]
  · unfold extractAllRegionsProc
    simp only
    rw [List.getD_eq_getElem?_getD, List.getElem?_append_right (le_refl _)]
    simp

section SamplerDefs

/-- World coordinates of the cell centres (`self.occupancyMapCoord`), produced
by the external `calculate2dNavigationMap` and read-only here. -/
abbrev CoordGrid : Type := List (List (Rat × Rat))

/-- Read `occupancyMapCoord[i, j]`, line 208. -/
def coordGet (c : CoordGrid) (p : Pos) : Rat × Rat :=
  (c.getD p.1.toNat []).getD p.2.toNat (0, 0)

/-- `int(np.max(grid))`, lines 157 and 180: the maximum over all cells. -/
def gridMax (g : Grid) : Int :=
  match g.flatMap id with
  | [] => 0
  | h :: t => t.foldl max h

/-- `np.count_nonzero(grid == r)`, lines 160 and 183. -/
def countEq (g : Grid) (r : Int) : Nat :=
  (g.flatMap id).countP (fun x => decide (x = r))

/-- In-place masked assignment `grid[grid == r] = v`, lines 163 and 165. -/
def relabel (g : Grid) (r v : Int) : Grid :=
  g.map (List.map (fun x => if x = r then v else x))

/-- One iteration of the filtering loop, lines 159-167.  The state is
`(labeledNavMap, curValidRegionId, regionAreas)`. -/
def filterStep (cellArea minRegionArea : Rat) (st : Grid × Int × List Rat) (r : Int) :
    Grid × Int × List Rat :=
  if (countEq st.1 r : Rat) * cellArea < minRegionArea then
    (relabel st.1 r (-1), st.2.1, st.2.2)
  else
    (relabel st.1 r st.2.1, st.2.1 + 1, st.2.2 ++ [(countEq st.1 r : Rat) * cellArea])

/-- `range(1, nbRegions + 1)` as region ids, line 159. -/
def regionIdsN (n : Nat) : List Int := (List.range n).map (fun k => Int.ofNat k + 1)

/-- The filtering pass of `generateOccupancyMap`, lines 155-167: remove regions
below the area threshold and renumber the survivors contiguously. -/
def filterRegions (g : Grid) (cellArea minRegionArea : Rat) : Grid × Int × List Rat :=
  (regionIdsN (gridMax g).toNat).foldl (filterStep cellArea minRegionArea) (g, 1, [])

/-- `generateOccupancyMap`, lines 148-172.  The external physics collaborator
`calculate2dNavigationMap` is out of scope; its outputs `occupancyMap` and
`occupancyMapCoord` are parameters.  `cellArea = precision ** 2` (line 150).
The method returns `(self.labeledNavMap, self.occupancyMapCoord)` (line 172);
the `regionAreas` list built by the loop stays local. -/
def generateOccupancyMap (occupancyMap : Grid) (coord : CoordGrid)
    (minRegionArea precision : Rat) : Grid × CoordGrid :=
  ((filterRegions (extractAllRegions occupancyMap) (precision ^ 2) minRegionArea).1, coord)

/-- The exceptions numpy can raise in the sampling loop of
`generateSpawnPositions`; the source defines no error types of its own. -/
inductive NpError : Type
  | valueErrorRandint
  | indexError
deriving DecidableEq

instance {e a : Type} [DecidableEq e] [DecidableEq a] : DecidableEq (Except e a)
  | Except.error x, Except.error y =>
    if h : x = y then isTrue (by rw [h]) else isFalse (fun hc => h (Except.error.inj hc))
  | Except.error _, Except.ok _ => isFalse (fun hc => Except.noConfusion hc)
  | Except.ok _, Except.error _ => isFalse (fun hc => Except.noConfusion hc)
  | Except.ok x, Except.ok y =>
    if h : x = y then isTrue (by rw [h]) else isFalse (fun hc => h (Except.ok.inj hc))

/-- Indices `k` with `s[k] < r` in increasing order: `np.argwhere(s < r)`. -/
def idxLt (s : List Rat) (r : Rat) : List Nat :=
  (List.range s.length).filter (fun k => decide (s.getD k 0 < r))

/-- Lines 197-199: `idx = np.argwhere(s < r)[-1] + 1` then
`selRegionId = idx + 1`.  Indexing `[-1]` into an empty `argwhere` result
raises `IndexError`. -/
def selectRegion (s : List Rat) (r : Rat) : Except NpError Int :=
  match (idxLt s r).getLast? with
  | none => Except.error NpError.indexError
  | some k => Except.ok ((k : Int) + 2)

/-- `np.argwhere(labeledNavMap == selRegionId)`, line 204: row-major
coordinates of the cells carrying the selected label. -/
def cellsEq (g : Grid) (v : Int) : List Pos :=
  (allPos g).filter (fun p => decide (getC g p = v))

/-- `np.random.randint(low=0, high=n)` for `n > 0`, fed by one stream draw
`u ∈ [0,1)`. -/
def randintIdx (u : Rat) (n : Nat) : Nat := (Int.floor (u * (n : Rat))).toNat

/-- cumulative sums with carry -/
def cumsumFrom (c : Rat) : List Rat → List Rat
  | [] => []
  | x :: t => (c + x) :: cumsumFrom (c + x) t

/-- `np.cumsum`, line 190. -/
def cumsum (l : List Rat) : List Rat := cumsumFrom 0 l

/-- One iteration of the sampling loop, lines 193-209.  The state is the
cursor into the random stream together with the positions gathered so far.
`np.random.randint(low=0, high=0)` (an empty candidate set) raises
`ValueError`. -/
def spawnStep (F : Grid) (coord : CoordGrid) (s : List Rat) (stream : Nat → Rat)
    (st : Nat × List (Rat × Rat)) : Except NpError (Nat × List (Rat × Rat)) :=
  match (if 1 < s.length then
          match selectRegion s (stream st.1) with
          | Except.error e => Except.error e
          | Except.ok v => Except.ok (v, st.1 + 1)
        else Except.ok (1, st.1) : Except NpError (Int × Nat)) with
  | Except.error e => Except.error e
  | Except.ok (v, t) =>
    if (cellsEq F v).length = 0 then Except.error NpError.valueErrorRandint
    else
      Except.ok (t + 1, st.2 ++
        [coordGet coord ((cellsEq F v).getD (randintIdx (stream t) (cellsEq F v).length) (0, 0))])

/-- The `for _ in range(n)` sampling loop, lines 192-209. -/
def spawnLoop (F : Grid) (coord : CoordGrid) (s : List Rat) (stream : Nat → Rat) :
    Nat → Nat × List (Rat × Rat) → Except NpError (Nat × List (Rat × Rat))
  | 0, st => Except.ok st
  | n + 1, st =>
    match spawnStep F coord s stream st with
    | Except.error e => Except.error e
    | Except.ok st' => spawnLoop F coord s stream n st'

/-- Lines 179-186: the per-region areas recomputed from the filtered grid,
`regionAreas[k] = count(labeled == k+1) * cellArea` with `cellArea = precision ** 2`. -/
def spawnAreas (F : Grid) (prec : Rat) : List Rat :=
  (List.range (gridMax F).toNat).map (fun k => (countEq F (Int.ofNat k + 1) : Rat) * prec ^ 2)

/-- Lines 189-190: `regionAreas /= np.sum(regionAreas)` then `s = np.cumsum(regionAreas)`. -/
def spawnS (F : Grid) (prec : Rat) : List Rat :=
  cumsum ((spawnAreas F prec).map (fun a => a / (spawnAreas F prec).sum))

/-- Lines 211-212: `occupancyMap = np.zeros(shape)` then
`occupancyMap[labeledNavMap == -1] = 1.0`. -/
def omOf (F : Grid) : List (List Rat) :=
  F.map (List.map (fun v => if v = -1 then (1 : Rat) else 0))

/-- `generateSpawnPositions`, lines 174-214.  As with `generateOccupancyMap`,
the external navigation-map producer's outputs are parameters; the global
numpy random stream is `stream` with cursor `t0`.  On success the method
returns `(occupancyMap, occupancyMapCoord, positions)`. -/
def generateSpawnPositions (m : Grid) (coord : CoordGrid) (n : Nat)
    (minRegionArea precision : Rat) (stream : Nat → Rat) (t0 : Nat) :
    Except NpError (List (List Rat) × CoordGrid × List (Rat × Rat)) :=
  match spawnLoop (generateOccupancyMap m coord minRegionArea precision).1 coord
      (spawnS (generateOccupancyMap m coord minRegionArea precision).1 precision)
      stream n (t0, []) with
  | Except.error e => Except.error e
  | Except.ok st =>
    Except.ok (omOf (generateOccupancyMap m coord minRegionArea precision).1, coord, st.2)

end SamplerDefs

example : extractAllRegions [[0, 1, 0]] = [[1, -1, 2]] := by decide
example : filterRegions [[1, -1, 2]] 1 0 = ([[1, -1, 2]], 3, [1, 1]) := by
  with_unfolding_all decide
example : generateSpawnPositions [[1]] [[(0, 0)]] 1 10 1 (fun _ => 0) 0 =
    Except.error NpError.valueErrorRandint := by with_unfolding_all decide
example : generateSpawnPositions [[0, 1, 0]] [[(0, 0), (1, 0), (2, 0)]] 1 0 1
    (fun _ => 1/4) 0 = Except.error NpError.indexError := by with_unfolding_all decide
example : generateSpawnPositions [[0, 1, 0]] [[(0, 0), (1, 0), (2, 0)]] 1 0 1
    (fun _ => 3/4) 0 = Except.ok ([[0, 1, 0]], [[(0, 0), (1, 0), (2, 0)]], [(2, 0)]) := by
  with_unfolding_all decide

section FlattenLemmas

lemma list_eq_map_range_getD (l : List Int) :
    l = (List.range l.length).map (fun j => l.getD j 0) := by
  induction l with
  | nil => rfl
  | cons a t ih =>
    rw [List.length_cons, List.range_succ_eq_map, List.map_cons]
    congr 1
    rw [List.map_map]
    exact ih.trans (by simp [Function.comp])

lemma flatMap_eq_rows (g : Grid) :
    g.flatMap id = (List.range g.length).flatMap (fun i => g.getD i []) := by
  induction g with
  | nil => rfl
  | cons r t ih =>
    rw [List.flatMap_cons, List.length_cons, List.range_succ_eq_map, List.flatMap_cons]
    congr 1
    rw [List.flatMap_map]
    exact ih.trans (by simp [Function.comp])

lemma flatMap_eq_map_allPos (g : Grid) (hR : Rect g) :
    g.flatMap id = (allPos g).map (getC g) := by
  rw [flatMap_eq_rows]
  unfold allPos
  rw [List.map_flatMap]
  refine List.flatMap_congr ?_
  intro i hi
  rw [List.mem_range] at hi
  rw [List.map_map]
  have hrow : g.getD i [] = (List.range (g.getD i []).length).map (fun j => (g.getD i []).getD j 0) :=
    list_eq_map_range_getD _
  have hlen : (g.getD i []).length = gridW g := hR _ (row_mem_of_lt hi)
  rw [hlen] at hrow
  rw [hrow]
  refine List.map_congr_left ?_
  intro j _
  simp [getC, Function.comp, Int.ofNat_eq_coe]

lemma countEq_allPos (g : Grid) (hR : Rect g) (v : Int) :
    countEq g v = (allPos g).countP (fun p => decide (getC g p = v)) := by
  unfold countEq
  rw [flatMap_eq_map_allPos g hR, List.countP_map]
  rfl

lemma foldl_max_le {l : List Int} {h : Int} : ∀ x ∈ h :: l, x ≤ l.foldl max h := by
  induction l generalizing h with
  | nil => intro x hx; rw [List.mem_singleton.mp hx]; exact le_refl _
  | cons b t ih =>
    intro x hx
    rw [List.foldl_cons]
    rcases List.mem_cons.mp hx with rfl | hx
    · exact le_trans (le_max_left x b) (ih _ (List.mem_cons_self _ _))
    · rcases List.mem_cons.mp hx with rfl | hx
      · exact le_trans (le_max_right h x) (ih _ (List.mem_cons_self _ _))
      · exact ih _ (List.mem_cons_of_mem _ hx)

lemma foldl_max_mem (l : List Int) (h : Int) : l.foldl max h ∈ h :: l := by
  induction l generalizing h with
  | nil => exact List.mem_singleton_self h
  | cons b t ih =>
    rw [List.foldl_cons]
    rcases List.mem_cons.mp (ih (max h b)) with he | hmem
    · rcases max_choice h b with hm | hm
      · rw [he, hm]; exact List.mem_cons_self _ _
      · rw [he, hm]; exact List.mem_cons_of_mem _ (List.mem_cons_self _ _)
    · exact List.mem_cons_of_mem _ (List.mem_cons_of_mem _ hmem)

lemma gridMax_spec (g : Grid) (hR : Rect g) (hH : 0 < gridH g) (hW : 0 < gridW g) :
    (∃ p, inB g p ∧ getC g p = gridMax g) ∧ ∀ p, inB g p → getC g p ≤ gridMax g := by
  have hflat : g.flatMap id = (allPos g).map (getC g) := flatMap_eq_map_allPos g hR
  have hlen : (allPos g).length = gridH g * gridW g := length_allPos g
  have hpos : 0 < (allPos g).length := by rw [hlen]; positivity
  obtain ⟨p0, ap, hap⟩ : ∃ p0 ap, allPos g = p0 :: ap := by
    cases hap : allPos g with
    | nil => rw [hap] at hpos; simp at hpos
    | cons a l => exact ⟨a, l, rfl⟩
  have hg : gridMax g = (ap.map (getC g)).foldl max (getC g p0) := by
    unfold gridMax
    rw [hflat, hap, List.map_cons]
  constructor
  · have hmem := foldl_max_mem (ap.map (getC g)) (getC g p0)
    rw [← List.map_cons, ← hap] at hmem
    obtain ⟨p, hp, he⟩ := List.mem_map.mp hmem
    refine ⟨p, mem_allPos.mp hp, ?_⟩
    rw [hg]
    exact he
  · intro p hp
    rw [hg]
    refine foldl_max_le _ ?_
    rw [← List.map_cons, ← hap]
    exact List.mem_map_of_mem _ (mem_allPos.mpr hp)

end FlattenLemmas

section FilterClosedForm

/-- The loop at lines 159-167 keeps region `r` iff its area is not below the
threshold (line 162). -/
def Survives (L : Grid) (cA T : Rat) (r : Int) : Prop := ¬ ((countEq L r : Rat) * cA < T)

instance (L : Grid) (cA T : Rat) (r : Int) : Decidable (Survives L cA T r) := by
  unfold Survives; infer_instance

/-- Number of surviving region ids among `1..j`. -/
def survCount (L : Grid) (cA T : Rat) (j : Nat) : Nat :=
  ((regionIdsN j).filter (fun r => decide (Survives L cA T r))).length

/-- The per-cell relabelling performed by the first `j` iterations of the
filtering loop: ids `1..j` go to `-1` or to their rank among the survivors,
other values are untouched. -/
def remapUpTo (L : Grid) (cA T : Rat) (j : Nat) (v : Int) : Int :=
  if 1 ≤ v ∧ v ≤ (j : Int) then
    (if Survives L cA T v then 1 + (survCount L cA T (v - 1).toNat : Int) else -1)
  else v

/-- Areas appended by the first `j` iterations, in increasing original-id
order. -/
def areasUpTo (L : Grid) (cA T : Rat) (j : Nat) : List Rat :=
  ((regionIdsN j).filter (fun r => decide (Survives L cA T r))).map
    (fun r => (countEq L r : Rat) * cA)

lemma regionIdsN_succ (j : Nat) : regionIdsN (j + 1) = regionIdsN j ++ [(j : Int) + 1] := by
  unfold regionIdsN
  rw [List.range_succ, List.map_append, List.map_singleton, Int.ofNat_eq_coe]

lemma survCount_le (L : Grid) (cA T : Rat) (j : Nat) : survCount L cA T j ≤ j := by
  unfold survCount
  calc ((regionIdsN j).filter _).length ≤ (regionIdsN j).length := List.length_filter_le _ _
  _ = j := by unfold regionIdsN; rw [List.length_map, List.length_range]

lemma survCount_succ (L : Grid) (cA T : Rat) (j : Nat) :
    survCount L cA T (j + 1) =
      survCount L cA T j + (if Survives L cA T ((j : Int) + 1) then 1 else 0) := by
  unfold survCount
  rw [regionIdsN_succ, List.filter_append, List.length_append]
  by_cases h : Survives L cA T ((j : Int) + 1) <;> simp [h]

lemma areasUpTo_succ (L : Grid) (cA T : Rat) (j : Nat) :
    areasUpTo L cA T (j + 1) = areasUpTo L cA T j ++
      (if Survives L cA T ((j : Int) + 1) then [(countEq L ((j : Int) + 1) : Rat) * cA]
        else []) := by
  unfold areasUpTo
  rw [regionIdsN_succ, List.filter_append, List.map_append]
  by_cases h : Survives L cA T ((j : Int) + 1) <;> simp [h]

lemma remapUpTo_eq_iff (L : Grid) (cA T : Rat) (j : Nat) (v : Int) :
    remapUpTo L cA T j v = (j : Int) + 1 ↔ v = (j : Int) + 1 := by
  unfold remapUpTo
  by_cases hv : 1 ≤ v ∧ v ≤ (j : Int)
  · rw [if_pos hv]
    have hb : (survCount L cA T (v - 1).toNat : Int) ≤ v - 1 := by
      have := survCount_le L cA T (v - 1).toNat
      omega
    constructor
    · intro h
      by_cases hs : Survives L cA T v
      · rw [if_pos hs] at h
        omega
      · rw [if_neg hs] at h
        omega
    · intro h
      omega
  · rw [if_neg hv]

lemma remapUpTo_succ (L : Grid) (cA T : Rat) (j : Nat) (v : Int) :
    remapUpTo L cA T (j + 1) v =
      if remapUpTo L cA T j v = (j : Int) + 1 then
        (if Survives L cA T ((j : Int) + 1) then 1 + (survCount L cA T j : Int) else -1)
      else remapUpTo L cA T j v := by
  by_cases hv : v = (j : Int) + 1
  · subst hv
    have h1 : remapUpTo L cA T j ((j : Int) + 1) = (j : Int) + 1 :=
      (remapUpTo_eq_iff L cA T j _).mpr rfl
    rw [h1, if_pos rfl]
    unfold remapUpTo
    rw [if_pos (by constructor <;> omega)]
    have h2 : (((j : Int) + 1) - 1).toNat = j := by omega
    rw [h2]
  · have h1 : remapUpTo L cA T j v ≠ (j : Int) + 1 :=
      fun h => hv ((remapUpTo_eq_iff L cA T j v).mp h)
    rw [if_neg h1]
    unfold remapUpTo
    by_cases hr : 1 ≤ v ∧ v ≤ (j : Int)
    · rw [if_pos hr, if_pos (by constructor <;> omega)]
    · rw [if_neg hr, if_neg (by omega)]

lemma countEq_mapGrid (f : Int → Int) (g : Grid) (v : Int) :
    countEq (g.map (List.map f)) v = (g.flatMap id).countP (fun x => decide (f x = v)) := by
  unfold countEq
  have hflat : (g.map (List.map f)).flatMap id = (g.flatMap id).map f := by
    induction g with
    | nil => rfl
    | cons r t ih =>
      simp only [List.map_cons, List.flatMap_cons, ih, id_eq, List.map_append]
  rw [hflat, List.countP_map]
  rfl

lemma relabel_mapGrid (f : Int → Int) (g : Grid) (r v : Int) :
    relabel (g.map (List.map f)) r v =
      g.map (List.map (fun x => if f x = r then v else f x)) := by
  unfold relabel
  rw [List.map_map]
  refine List.map_congr_left ?_
  intro row _
  rw [Function.comp_apply, List.map_map]
  rfl

lemma mapGrid_congr {f h : Int → Int} (g : Grid) (he : ∀ v, f v = h v) :
    g.map (List.map f) = g.map (List.map h) := by
  have : f = h := funext he
  rw [this]

lemma filterStep_def (cA T : Rat) (A : Grid) (B : Int) (C : List Rat) (r : Int) :
    filterStep cA T (A, B, C) r =
      if (countEq A r : Rat) * cA < T then (relabel A r (-1), B, C)
      else (relabel A r B, B + 1, C ++ [(countEq A r : Rat) * cA]) := rfl

lemma filterLoop_closed (L : Grid) (cA T : Rat) : ∀ j : Nat,
    (regionIdsN j).foldl (filterStep cA T) (L, 1, []) =
      (L.map (List.map (remapUpTo L cA T j)), 1 + (survCount L cA T j : Int),
        areasUpTo L cA T j) := by
  intro j
  induction j with
  | zero =>
    have h0 : ∀ v, remapUpTo L cA T 0 v = v := by
      intro v
      unfold remapUpTo
      rw [if_neg (by omega)]
    have hL : L.map (List.map (remapUpTo L cA T 0)) = L := by
      rw [mapGrid_congr L h0]
      simp [List.map_id]
    rw [hL]
    rfl
  | succ j ih =>
    rw [regionIdsN_succ, List.foldl_append, ih, List.foldl_cons, List.foldl_nil]
    have hcnt : countEq (L.map (List.map (remapUpTo L cA T j))) ((j : Int) + 1) =
        countEq L ((j : Int) + 1) := by
      rw [countEq_mapGrid]
      unfold countEq
      refine List.countP_congr ?_
      intro x _
      simp only [decide_eq_true_eq]
      exact remapUpTo_eq_iff L cA T j x
    rw [filterStep_def, hcnt]
    by_cases hs : Survives L cA T ((j : Int) + 1)
    · have hs' : ¬ ((countEq L ((j : Int) + 1) : Rat) * cA < T) := hs
      rw [if_neg hs', relabel_mapGrid]
      refine Prod.ext ?_ (Prod.ext ?_ ?_)
      · refine (mapGrid_congr L ?_ : _ = L.map (List.map (remapUpTo L cA T (j + 1))))
        intro v
        rw [remapUpTo_succ L cA T j v, if_pos hs]
      · show 1 + (survCount L cA T j : Int) + 1 = 1 + (survCount L cA T (j + 1) : Int)
        rw [survCount_succ, if_pos hs]
        push_cast
        ring
      · show areasUpTo L cA T j ++ [(countEq L ((j : Int) + 1) : Rat) * cA] =
          areasUpTo L cA T (j + 1)
        rw [areasUpTo_succ, if_pos hs]
    · have hs' : (countEq L ((j : Int) + 1) : Rat) * cA < T := by
        have h2 := hs
        unfold Survives at h2
        exact not_not.mp h2
      rw [if_pos hs', relabel_mapGrid]
      refine Prod.ext ?_ (Prod.ext ?_ ?_)
      · refine (mapGrid_congr L ?_ : _ = L.map (List.map (remapUpTo L cA T (j + 1))))
        intro v
        rw [remapUpTo_succ L cA T j v, if_neg hs]
      · show 1 + (survCount L cA T j : Int) = 1 + (survCount L cA T (j + 1) : Int)
        rw [survCount_succ, if_neg hs]
        push_cast
        ring
      · show areasUpTo L cA T j = areasUpTo L cA T (j + 1)
        rw [areasUpTo_succ, if_neg hs, List.append_nil]

/-- Closed form of the whole filtering pass. -/
lemma filterRegions_closed (L : Grid) (cA T : Rat) :
    filterRegions L cA T =
      (L.map (List.map (remapUpTo L cA T (gridMax L).toNat)),
        1 + (survCount L cA T (gridMax L).toNat : Int),
        areasUpTo L cA T (gridMax L).toNat) :=
  filterLoop_closed L cA T (gridMax L).toNat

end FilterClosedForm

section FilterProperties

/-- The LabelGrid invariant of the spec (§3): rectangular, every cell is
OCCUPIED_MARK or a label in `1..R` where `R` is the largest label, and every
label in that range is attained. -/
def IsLabelGrid (L : Grid) : Prop :=
  Rect L ∧
  (∀ p, inB L p → getC L p = -1 ∨ (1 ≤ getC L p ∧ getC L p ≤ gridMax L)) ∧
  (∀ k : Int, 1 ≤ k → k ≤ gridMax L → ∃ p, inB L p ∧ getC L p = k)

lemma survCount_zero (L : Grid) (cA T : Rat) : survCount L cA T 0 = 0 := rfl

lemma survCount_lt_of_survives (L : Grid) (cA T : Rat) {r : Int} :
    ∀ {j : Nat}, 1 ≤ r → r ≤ (j : Int) → Survives L cA T r →
      survCount L cA T (r - 1).toNat < survCount L cA T j := by
  intro j
  induction j with
  | zero => intro h1 h2 _; omega
  | succ j ih =>
    intro h1 h2 hs
    rw [survCount_succ]
    by_cases hr : r = (j : Int) + 1
    · have he : (r - 1).toNat = j := by omega
      rw [he, if_pos (hr ▸ hs)]
      omega
    · have hlt := ih h1 (by omega) hs
      by_cases hj : Survives L cA T ((j : Int) + 1)
      · rw [if_pos hj]; omega
      · rw [if_neg hj]; omega

lemma remap_rank (L : Grid) (cA T : Rat) {r : Int} (h1 : 1 ≤ r) (h2 : r ≤ gridMax L)
    (hs : Survives L cA T r) :
    remapUpTo L cA T (gridMax L).toNat r = 1 + (survCount L cA T (r - 1).toNat : Int) := by
  unfold remapUpTo
  rw [if_pos ⟨h1, by omega⟩, if_pos hs]

lemma remap_dead (L : Grid) (cA T : Rat) {r : Int} (h1 : 1 ≤ r) (h2 : r ≤ gridMax L)
    (hs : ¬ Survives L cA T r) :
    remapUpTo L cA T (gridMax L).toNat r = -1 := by
  unfold remapUpTo
  rw [if_pos ⟨h1, by omega⟩, if_neg hs]

lemma remap_neg (L : Grid) (cA T : Rat) :
    remapUpTo L cA T (gridMax L).toNat (-1) = -1 := by
  unfold remapUpTo
  rw [if_neg (by omega)]

lemma remap_value_cases (L : Grid) (cA T : Rat) {v : Int}
    (hv : v = -1 ∨ (1 ≤ v ∧ v ≤ gridMax L)) :
    remapUpTo L cA T (gridMax L).toNat v = -1 ∨
      (1 ≤ remapUpTo L cA T (gridMax L).toNat v ∧
        remapUpTo L cA T (gridMax L).toNat v ≤ (survCount L cA T (gridMax L).toNat : Int)) := by
  rcases hv with rfl | ⟨h1, h2⟩
  · exact Or.inl (remap_neg L cA T)
  · by_cases hs : Survives L cA T v
    · right
      rw [remap_rank L cA T h1 h2 hs]
      have := survCount_lt_of_survives L cA T (j := (gridMax L).toNat) h1 (by omega) hs
      omega
    · exact Or.inl (remap_dead L cA T h1 h2 hs)

lemma remap_inj (L : Grid) (cA T : Rat) {v r : Int}
    (hv : v = -1 ∨ (1 ≤ v ∧ v ≤ gridMax L)) (h1 : 1 ≤ r) (h2 : r ≤ gridMax L)
    (hs : Survives L cA T r) :
    remapUpTo L cA T (gridMax L).toNat v = remapUpTo L cA T (gridMax L).toNat r ↔ v = r := by
  constructor
  · intro he
    rw [remap_rank L cA T h1 h2 hs] at he
    rcases hv with rfl | ⟨hv1, hv2⟩
    · rw [remap_neg L cA T] at he
      omega
    · by_cases hvs : Survives L cA T v
      · rw [remap_rank L cA T hv1 hv2 hvs] at he
        rcases lt_trichotomy v r with h | h | h
        · exfalso
          have := survCount_lt_of_survives L cA T (j := (r - 1).toNat) hv1 (by omega) hvs
          omega
        · exact h
        · exfalso
          have := survCount_lt_of_survives L cA T (j := (v - 1).toNat) h1 (by omega) hs
          omega
      · rw [remap_dead L cA T hv1 hv2 hvs] at he
        omega
  · intro he
    rw [he]

lemma rank_surj (L : Grid) (cA T : Rat) :
    ∀ (j : Nat) (k : Nat), 1 ≤ k → k ≤ survCount L cA T j →
      ∃ r : Int, 1 ≤ r ∧ r ≤ (j : Int) ∧ Survives L cA T r ∧
        1 + survCount L cA T (r - 1).toNat = k := by
  intro j
  induction j with
  | zero =>
    intro k h1 h2
    rw [survCount_zero] at h2
    omega
  | succ j ih =>
    intro k h1 h2
    by_cases hk : k ≤ survCount L cA T j
    · obtain ⟨r, ha, hb, hc, hd⟩ := ih k h1 hk
      exact ⟨r, ha, by omega, hc, hd⟩
    · rw [survCount_succ] at h2
      by_cases hs : Survives L cA T ((j : Int) + 1)
      · rw [if_pos hs] at h2
        refine ⟨(j : Int) + 1, by omega, by omega, hs, ?_⟩
        have he : (((j : Int) + 1) - 1).toNat = j := by omega
        rw [he]
        omega
      · rw [if_neg hs] at h2
        omega

lemma areasUpTo_length (L : Grid) (cA T : Rat) (j : Nat) :
    (areasUpTo L cA T j).length = survCount L cA T j := by
  unfold areasUpTo survCount
  rw [List.length_map]

lemma areasUpTo_getD (L : Grid) (cA T : Rat) {r : Int} :
    ∀ {j : Nat}, 1 ≤ r → r ≤ (j : Int) → Survives L cA T r →
      (areasUpTo L cA T j).getD (survCount L cA T (r - 1).toNat) 0 =
        (countEq L r : Rat) * cA := by
  intro j
  induction j with
  | zero => intro h1 h2 _; omega
  | succ j ih =>
    intro h1 h2 hs
    rw [areasUpTo_succ]
    by_cases hr : r = (j : Int) + 1
    · have he : (r - 1).toNat = j := by omega
      rw [he, if_pos (hr ▸ hs)]
      have hlen : (areasUpTo L cA T j).length = survCount L cA T j := areasUpTo_length L cA T j
      rw [List.getD_eq_getElem?_getD, List.getElem?_append_right (by omega)]
      rw [hlen]
      simp [hr]
    · have hlt := survCount_lt_of_survives L cA T (j := j) h1 (by omega) hs
      have hlen : (areasUpTo L cA T j).length = survCount L cA T j := areasUpTo_length L cA T j
      rw [List.getD_eq_getElem?_getD, List.getElem?_append, if_pos (by omega)]
      rw [← List.getD_eq_getElem?_getD]
      exact ih h1 (by omega) hs

end FilterProperties

section FilterSpec

lemma filterRegions_fst (L : Grid) (cA T : Rat) :
    (filterRegions L cA T).1 = L.map (List.map (remapUpTo L cA T (gridMax L).toNat)) := by
  rw [filterRegions_closed]

lemma filterRegions_areas (L : Grid) (cA T : Rat) :
    (filterRegions L cA T).2.2 = areasUpTo L cA T (gridMax L).toNat := by
  rw [filterRegions_closed]

lemma filter_getC (L : Grid) (cA T : Rat) (hRect : Rect L) {p : Pos} (hp : inB L p) :
    getC (filterRegions L cA T).1 p =
      remapUpTo L cA T (gridMax L).toNat (getC L p) := by
  rw [filterRegions_fst]
  exact getC_mapGrid _ hRect hp

lemma filter_gridH (L : Grid) (cA T : Rat) : gridH (filterRegions L cA T).1 = gridH L := by
  rw [filterRegions_fst]
  exact gridH_mapGrid _ _

lemma filter_gridW (L : Grid) (cA T : Rat) : gridW (filterRegions L cA T).1 = gridW L := by
  rw [filterRegions_fst]
  exact gridW_mapGrid _ _

lemma filter_rect (L : Grid) (cA T : Rat) (hRect : Rect L) : Rect (filterRegions L cA T).1 := by
  rw [filterRegions_fst]
  exact rect_mapGrid _ hRect

lemma filter_countEq (L : Grid) (cA T : Rat) (hL : IsLabelGrid L) {r : Int}
    (h1 : 1 ≤ r) (h2 : r ≤ gridMax L) (hs : Survives L cA T r) :
    countEq (filterRegions L cA T).1 (1 + (survCount L cA T (r - 1).toNat : Int)) =
      countEq L r := by
  obtain ⟨hRect, hvals, _⟩ := hL
  rw [filterRegions_fst, countEq_mapGrid]
  unfold countEq
  rw [flatMap_eq_map_allPos L hRect, List.countP_map, List.countP_map]
  refine List.countP_congr ?_
  intro p hp
  have hc : getC L p = -1 ∨ (1 ≤ getC L p ∧ getC L p ≤ gridMax L) :=
    hvals p (mem_allPos.mp hp)
  simp only [Function.comp_apply, decide_eq_true_eq]
  rw [← remap_rank L cA T h1 h2 hs]
  exact remap_inj L cA T hc h1 h2 hs

/-- C6 sub-structure: everything the claim asserts about the filtering pass,
packaged over an arbitrary label grid. -/
lemma filter_full (L : Grid) (cA T : Rat) (hL : IsLabelGrid L) :
    (∀ p, inB L p → getC (filterRegions L cA T).1 p = -1 ∨
      (1 ≤ getC (filterRegions L cA T).1 p ∧
        getC (filterRegions L cA T).1 p ≤ (survCount L cA T (gridMax L).toNat : Int))) ∧
    (∀ k : Int, 1 ≤ k → k ≤ (survCount L cA T (gridMax L).toNat : Int) →
      (∃ p, inB L p ∧ getC (filterRegions L cA T).1 p = k) ∧
      ¬ ((countEq (filterRegions L cA T).1 k : Rat) * cA < T)) ∧
    (∀ r : Int, 1 ≤ r → r ≤ gridMax L → (countEq L r : Rat) * cA < T →
      ∀ p, inB L p → getC L p = r → getC (filterRegions L cA T).1 p = -1) ∧
    (∀ p q, inB L p → inB L q → 1 ≤ getC (filterRegions L cA T).1 p →
      1 ≤ getC (filterRegions L cA T).1 q →
      (getC (filterRegions L cA T).1 p < getC (filterRegions L cA T).1 q ↔
        getC L p < getC L q)) := by
  obtain ⟨hRect, hvals, hatt⟩ := hL
  have hLfull : IsLabelGrid L := ⟨hRect, hvals, hatt⟩
  have hpos : ∀ p, inB L p → 1 ≤ getC (filterRegions L cA T).1 p →
      1 ≤ getC L p ∧ getC L p ≤ gridMax L ∧ Survives L cA T (getC L p) ∧
        getC (filterRegions L cA T).1 p =
          1 + (survCount L cA T (getC L p - 1).toNat : Int) := by
    intro p hp h1
    rw [filter_getC L cA T hRect hp] at h1 ⊢
    rcases hvals p hp with hm | ⟨ha, hb⟩
    · rw [hm, remap_neg] at h1
      omega
    · by_cases hs : Survives L cA T (getC L p)
      · exact ⟨ha, hb, hs, remap_rank L cA T ha hb hs⟩
      · rw [remap_dead L cA T ha hb hs] at h1
        omega
  refine ⟨?_, ?_, ?_, ?_⟩
  · intro p hp
    rw [filter_getC L cA T hRect hp]
    exact remap_value_cases L cA T (hvals p hp)
  · intro k h1 h2
    obtain ⟨r, ha, hb, hc, hd⟩ :=
      rank_surj L cA T (gridMax L).toNat k.toNat (by omega) (by omega)
    have hbg : r ≤ gridMax L := by omega
    have hrank : 1 + (survCount L cA T (r - 1).toNat : Int) = k := by omega
    constructor
    · obtain ⟨p, hpB, hpv⟩ := hatt r ha hbg
      refine ⟨p, hpB, ?_⟩
      rw [filter_getC L cA T hRect hpB, hpv, remap_rank L cA T ha hbg hc, hrank]
    · rw [← hrank, filter_countEq L cA T hLfull ha hbg hc]
      exact hc
  · intro r h1 h2 harea p hp hv
    rw [filter_getC L cA T hRect hp, hv]
    exact remap_dead L cA T h1 h2 (by unfold Survives; exact not_not.mpr harea)
  · intro p q hp hq h1p h1q
    obtain ⟨hpa, hpb, hps, hpe⟩ := hpos p hp h1p
    obtain ⟨hqa, hqb, hqs, hqe⟩ := hpos q hq h1q
    rw [hpe, hqe]
    constructor
    · intro hlt
      by_contra hc
      rcases eq_or_lt_of_le (le_of_not_lt hc) with he | hlt2
      · rw [he] at hlt
        omega
      · have := survCount_lt_of_survives L cA T (j := (getC L p - 1).toNat) hqa
          (by omega) hqs
        omega
    · intro hlt
      have := survCount_lt_of_survives L cA T (j := (getC L q - 1).toNat) hpa
        (by omega) hps
      omega

end FilterSpec

/-- C6: after the filtering pass of `generateOccupancyMap` on a label grid,
every surviving region's final area `cellCount × cellArea` is at least the
threshold, every original region with area below the threshold has all of its
cells set to OCCUPIED_MARK, and the survivors are renumbered contiguously
`1..R'` preserving their original relative order. -/
theorem c6_area_filter (L : Grid) (cA T : Rat) (hL : IsLabelGrid L) :
    ∃ Rp : Nat,
      (∀ p, inB L p → getC (filterRegions L cA T).1 p = -1 ∨
        (1 ≤ getC (filterRegions L cA T).1 p ∧
          getC (filterRegions L cA T).1 p ≤ (Rp : Int))) ∧
      (∀ k : Int, 1 ≤ k → k ≤ (Rp : Int) →
        (∃ p, inB L p ∧ getC (filterRegions L cA T).1 p = k) ∧
        ¬ ((countEq (filterRegions L cA T).1 k : Rat) * cA < T)) ∧
      (∀ r : Int, 1 ≤ r → r ≤ gridMax L → (countEq L r : Rat) * cA < T →
        ∀ p, inB L p → getC L p = r → getC (filterRegions L cA T).1 p = -1) ∧
      (∀ p q, inB L p → inB L q → 1 ≤ getC (filterRegions L cA T).1 p →
        1 ≤ getC (filterRegions L cA T).1 q →
        (getC (filterRegions L cA T).1 p < getC (filterRegions L cA T).1 q ↔
          getC L p < getC L q)) := by
  obtain ⟨h1, h2, h3, h4⟩ := filter_full L cA T hL
  exact ⟨survCount L cA T (gridMax L).toNat, h1, h2, h3, h4⟩

theorem c6_witness :
    IsLabelGrid [[(1 : Int)]] ∧
    (∃ Rp : Nat,
      (∀ p, inB [[(1 : Int)]] p → getC (filterRegions [[(1 : Int)]] 1 0).1 p = -1 ∨
        (1 ≤ getC (filterRegions [[(1 : Int)]] 1 0).1 p ∧
          getC (filterRegions [[(1 : Int)]] 1 0).1 p ≤ (Rp : Int))) ∧
      (∀ k : Int, 1 ≤ k → k ≤ (Rp : Int) →
        (∃ p, inB [[(1 : Int)]] p ∧ getC (filterRegions [[(1 : Int)]] 1 0).1 p = k) ∧
        ¬ ((countEq (filterRegions [[(1 : Int)]] 1 0).1 k : Rat) * 1 < 0)) ∧
      (∀ r : Int, 1 ≤ r → r ≤ gridMax [[(1 : Int)]] → (countEq [[(1 : Int)]] r : Rat) * 1 < 0 →
        ∀ p, inB [[(1 : Int)]] p → getC [[(1 : Int)]] p = r →
          getC (filterRegions [[(1 : Int)]] 1 0).1 p = -1) ∧
      (∀ p q, inB [[(1 : Int)]] p → inB [[(1 : Int)]] q →
        1 ≤ getC (filterRegions [[(1 : Int)]] 1 0).1 p →
        1 ≤ getC (filterRegions [[(1 : Int)]] 1 0).1 q →
        (getC (filterRegions [[(1 : Int)]] 1 0).1 p <
            getC (filterRegions [[(1 : Int)]] 1 0).1 q ↔
          getC [[(1 : Int)]] p < getC [[(1 : Int)]] q))) := by
  have hL : IsLabelGrid [[(1 : Int)]] := by
    refine ⟨by decide, ?_, ?_⟩
    · intro p hp
      rw [inB_one_one hp]
      right
      constructor
      · decide
      · show (1 : Int) ≤ gridMax [[(1 : Int)]]
        decide
    · intro k h1 h2
      have hm : gridMax [[(1 : Int)]] = 1 := by decide
      rw [hm] at h2
      have hk : k = 1 := by omega
      exact ⟨((0 : Int), (0 : Int)), by decide, by rw [hk]; decide⟩
  exact ⟨hL, c6_area_filter [[(1 : Int)]] 1 0 hL⟩

section ExtractIsLabelGrid

lemma isLabelGrid_extract (g0 : Grid) (hR : Rect g0) (hH : 0 < gridH g0)
    (hW : 0 < gridW g0) : IsLabelGrid (extractAllRegions g0) := by
  obtain ⟨R, hR0, hgh, hgw, hRect, hocc, hfree, hatt, _, _⟩ := extract_full g0 hR
  set L := extractAllRegions g0 with hLdef
  have hBL : ∀ p : Pos, inB L p ↔ inB g0 p := by
    intro p
    constructor
    · exact inB_of_dims hgh.symm hgw.symm
    · exact inB_of_dims hgh hgw
  have hMspec := gridMax_spec L hRect (by omega) (by omega)
  by_cases hfr : ∃ p, inB g0 p ∧ getC g0 p = 0
  · obtain ⟨p0, hp0, hz⟩ := hfr
    have h1 : 1 ≤ getC L p0 ∧ getC L p0 ≤ R := hfree p0 hp0 hz
    have hR1 : 1 ≤ R := by omega
    have hub : ∀ p, inB L p → getC L p ≤ R := by
      intro p hp
      by_cases h0 : getC g0 p = 0
      · exact (hfree p ((hBL p).mp hp) h0).2
      · rw [hocc p ((hBL p).mp hp) h0]
        omega
    have hmle : gridMax L ≤ R := by
      obtain ⟨⟨q, hq, he⟩, _⟩ := hMspec
      rw [← he]
      exact hub q hq
    have hmge : R ≤ gridMax L := by
      obtain ⟨p, hp, he⟩ := hatt R hR1 (le_refl R)
      rw [← he]
      exact hMspec.2 p ((hBL p).mpr hp)
    have hmax : gridMax L = R := le_antisymm hmle hmge
    refine ⟨hRect, ?_, ?_⟩
    · intro p hp
      rw [hmax]
      by_cases h0 : getC g0 p = 0
      · exact Or.inr (hfree p ((hBL p).mp hp) h0)
      · exact Or.inl (hocc p ((hBL p).mp hp) h0)
    · intro k h1k h2k
      rw [hmax] at h2k
      obtain ⟨p, hp, he⟩ := hatt k h1k h2k
      exact ⟨p, (hBL p).mpr hp, he⟩
  · push_neg at hfr
    have hall : ∀ p, inB L p → getC L p = -1 :=
      fun p hp => hocc p ((hBL p).mp hp) (hfr p ((hBL p).mp hp))
    have hmax : gridMax L = -1 := by
      obtain ⟨⟨q, hq, he⟩, _⟩ := hMspec
      rw [← he]
      exact hall q hq
    refine ⟨hRect, ?_, ?_⟩
    · intro p hp
      exact Or.inl (hall p hp)
    · intro k h1k h2k
      rw [hmax] at h2k
      omega

lemma occmap_fst (m : Grid) (c : CoordGrid) (T prec : Rat) :
    (generateOccupancyMap m c T prec).1 =
      (filterRegions (extractAllRegions m) (prec ^ 2) T).1 := rfl

lemma occmap_snd (m : Grid) (c : CoordGrid) (T prec : Rat) :
    (generateOccupancyMap m c T prec).2 = c := rfl

end ExtractIsLabelGrid

/-- C3 counterexample: `generateOccupancyMap` does not return the region-areas
list as the second component of its result.  With threshold 100 the single
region of the all-free 1×1 grid is filtered out (surviving-areas list `[]`),
with threshold 0 it survives (surviving-areas list `[1]`), yet both calls
return the same second component — the unchanged coordinate map — so the
second component cannot be the list of surviving region areas. -/
theorem c3_counterexample :
    (generateOccupancyMap [[0]] [[((9 : Rat), (9 : Rat))]] 100 1).2 =
      (generateOccupancyMap [[0]] [[((9 : Rat), (9 : Rat))]] 0 1).2 ∧
    (filterRegions (extractAllRegions [[0]]) (1 ^ 2) 100).2.2 ≠
      (filterRegions (extractAllRegions [[0]]) (1 ^ 2) 0).2.2 := by
  constructor
  · rfl
  · with_unfolding_all decide

/-- C3 amended: `generateOccupancyMap` returns the pair
`(filteredLabelGrid, occupancyMapCoord)`; the list of final areas of the `R'`
surviving regions, ordered by their renumbered ids `1..R'`, is computed into
the local `regionAreas` (line 166) but discarded, not returned.  The theorem
states both facts: the returned pair, and that the discarded list's `k`-th
entry is the final area `cellCount × cellArea` of renumbered region `k + 1`. -/
theorem c3_returns_coordmap (m : Grid) (c : CoordGrid) (T prec : Rat)
    (hR : Rect m) (hH : 0 < gridH m) (hW : 0 < gridW m) :
    (generateOccupancyMap m c T prec).2 = c ∧
    (generateOccupancyMap m c T prec).1 =
      (filterRegions (extractAllRegions m) (prec ^ 2) T).1 ∧
    (∀ k : Nat, k < (filterRegions (extractAllRegions m) (prec ^ 2) T).2.2.length →
      (filterRegions (extractAllRegions m) (prec ^ 2) T).2.2.getD k 0 =
        (countEq (generateOccupancyMap m c T prec).1 ((k : Int) + 1) : Rat) * prec ^ 2) := by
  have hL := isLabelGrid_extract m hR hH hW
  refine ⟨rfl, rfl, ?_⟩
  intro k hk
  set L := extractAllRegions m with hLdef
  set cA := prec ^ 2 with hcAdef
  rw [filterRegions_areas, areasUpTo_length] at hk
  obtain ⟨r, ha, hb, hc, hd⟩ :=
    rank_surj L cA T (gridMax L).toNat (k + 1) (by omega) (by omega)
  have hbg : r ≤ gridMax L := by omega
  have hsc : survCount L cA T (r - 1).toNat = k := by omega
  have hval := areasUpTo_getD L cA T (j := (gridMax L).toNat) ha (by omega) hc
  rw [hsc] at hval
  have hcnt := filter_countEq L cA T hL ha hbg hc
  rw [hsc] at hcnt
  have hcast : (1 : Int) + (k : Int) = (k : Int) + 1 := by ring
  rw [hcast] at hcnt
  rw [filterRegions_areas, hval, occmap_fst, ← hcnt]

theorem c3_witness :
    (Rect [[(0 : Int)]] ∧ 0 < gridH [[(0 : Int)]] ∧ 0 < gridW [[(0 : Int)]]) ∧
    ((generateOccupancyMap [[0]] [[((9 : Rat), (9 : Rat))]] 0 1).2 =
        [[((9 : Rat), (9 : Rat))]] ∧
      (generateOccupancyMap [[0]] [[((9 : Rat), (9 : Rat))]] 0 1).1 =
        (filterRegions (extractAllRegions [[0]]) (1 ^ 2) 0).1 ∧
      (∀ k : Nat, k < (filterRegions (extractAllRegions [[0]]) (1 ^ 2) 0).2.2.length →
        (filterRegions (extractAllRegions [[0]]) (1 ^ 2) 0).2.2.getD k 0 =
          (countEq (generateOccupancyMap [[0]] [[((9 : Rat), (9 : Rat))]] 0 1).1
              ((k : Int) + 1) : Rat) * 1 ^ 2)) :=
  ⟨⟨by decide, by decide, by decide⟩,
    c3_returns_coordmap [[0]] [[((9 : Rat), (9 : Rat))]] 0 1 (by decide) (by decide) (by decide)⟩

section SpawnLemmas

lemma cumsum_length (l : List Rat) : (cumsum l).length = l.length := by
  suffices h : ∀ (c : Rat) (l : List Rat), (cumsumFrom c l).length = l.length by
    exact h 0 l
  intro c l
  induction l generalizing c with
  | nil => rfl
  | cons x t ih => simp [cumsumFrom, ih]

lemma spawnStep_no_cells (F : Grid) (c : CoordGrid) (s : List Rat) (stream : Nat → Rat)
    (st : Nat × List (Rat × Rat)) (hs : ¬ 1 < s.length) (hcells : cellsEq F 1 = []) :
    spawnStep F c s stream st = Except.error NpError.valueErrorRandint := by
  have h1 : (cellsEq F 1).length = 0 := by rw [hcells]; rfl
  unfold spawnStep
  rw [if_neg hs]
  simp [h1]

lemma spawnLoop_err (F : Grid) (c : CoordGrid) (s : List Rat) (stream : Nat → Rat)
    {e : NpError} {n : Nat} (hn : 1 ≤ n) (st : Nat × List (Rat × Rat))
    (hstep : spawnStep F c s stream st = Except.error e) :
    spawnLoop F c s stream n st = Except.error e := by
  cases n with
  | zero => omega
  | succ n => simp only [spawnLoop, hstep]

end SpawnLemmas

/-- C1 counterexample: on an all-occupied 1×1 grid (so `R' = 0` after
filtering and the total surviving area is zero) with `n = 1` requested
position, `generateSpawnPositions` fails with the untyped `ValueError` that
`np.random.randint(low=0, high=0)` raises at line 205 — not with a typed
`NoNavigableSpaceError` or `InvalidAreaError`, neither of which exists
anywhere in the code. -/
theorem c1_counterexample :
    generateSpawnPositions [[1]] [[((0 : Rat), (0 : Rat))]] 1 10 1 (fun _ => 0) 0 =
      Except.error NpError.valueErrorRandint := by
  with_unfolding_all decide

/-- C1 amended: whenever zero regions survive filtering (`R' = 0`, i.e. the
filtered grid is entirely OCCUPIED_MARK — which also makes the total
surviving-region area zero) and `n ≥ 1` positions are requested,
`generateSpawnPositions` raises the `ValueError` of
`np.random.randint(low=0, high=0)` on the empty candidate-cell set of the
unconditionally selected region id 1, returning no partial result.  The code
defines no `NoNavigableSpaceError` or `InvalidAreaError`. -/
theorem c1_fails_with_randint_valueerror (m : Grid) (c : CoordGrid) (n : Nat)
    (T prec : Rat) (stream : Nat → Rat) (t0 : Nat)
    (hR : Rect m) (hH : 0 < gridH m) (hW : 0 < gridW m) (hn : 1 ≤ n)
    (hocc : ∀ p, inB m p → getC (generateOccupancyMap m c T prec).1 p = -1) :
    generateSpawnPositions m c n T prec stream t0 =
      Except.error NpError.valueErrorRandint := by
  obtain ⟨R, _, hgh, hgw, hRectL, _, _, _, _, _⟩ := extract_full m hR
  set F := (generateOccupancyMap m c T prec).1 with hFdef
  have hFL : F = (filterRegions (extractAllRegions m) (prec ^ 2) T).1 := rfl
  have hFH : gridH F = gridH m := by rw [hFL, filter_gridH]; exact hgh
  have hFW : gridW F = gridW m := by rw [hFL, filter_gridW]; exact hgw
  have hFRect : Rect F := by rw [hFL]; exact filter_rect _ _ _ hRectL
  have hall : ∀ p, inB F p → getC F p = -1 :=
    fun p hp => hocc p (inB_of_dims hFH.symm hFW.symm hp)
  have hmax : gridMax F = -1 := by
    obtain ⟨⟨q, hq, he⟩, _⟩ := gridMax_spec F hFRect (by omega) (by omega)
    rw [← he]
    exact hall q hq
  have hcells : cellsEq F 1 = [] := by
    unfold cellsEq
    rw [List.filter_eq_nil_iff]
    intro p hp
    simp only [decide_eq_true_eq]
    rw [hall p (mem_allPos.mp hp)]
    omega
  have hsS : spawnS F prec = [] := by
    unfold spawnS spawnAreas
    rw [hmax]
    rfl
  unfold generateSpawnPositions
  rw [← hFdef, hsS]
  rw [spawnLoop_err F c [] stream hn (t0, [])
    (spawnStep_no_cells F c [] stream (t0, []) (by simp) hcells)]

theorem c1_witness :
    (Rect [[(1 : Int)]] ∧ 0 < gridH [[(1 : Int)]] ∧ 0 < gridW [[(1 : Int)]] ∧ 1 ≤ 1 ∧
      (∀ p, inB [[(1 : Int)]] p →
        getC (generateOccupancyMap [[(1 : Int)]] [[((0 : Rat), (0 : Rat))]] 10 1).1 p = -1)) ∧
    generateSpawnPositions [[(1 : Int)]] [[((0 : Rat), (0 : Rat))]] 1 10 1 (fun _ => 1/2) 0 =
      Except.error NpError.valueErrorRandint := by
  have hocc : ∀ p, inB [[(1 : Int)]] p →
      getC (generateOccupancyMap [[(1 : Int)]] [[((0 : Rat), (0 : Rat))]] 10 1).1 p = -1 := by
    intro p hp
    rw [inB_one_one hp]
    with_unfolding_all decide
  exact ⟨⟨by decide, by decide, by decide, le_refl 1, hocc⟩,
    c1_fails_with_randint_valueerror [[(1 : Int)]] [[((0 : Rat), (0 : Rat))]] 1 10 1
      (fun _ => 1/2) 0 (by decide) (by decide) (by decide) (le_refl 1) hocc⟩

/-- C2: the cumulative-probability region selection of lines 197-199 is not
well-defined for every draw in `[0,1)`: with two equal-area surviving regions
(cumulative shares `[1/2, 1]`) and draw `1/4` — any draw not exceeding the
first region's share — `np.argwhere(s < r)` is empty and indexing it with
`[-1]` raises `IndexError` instead of selecting region 1, both at the level of
the selection expression and of the whole `generateSpawnPositions` call. -/
theorem c2_selection_crashes_on_low_draw :
    selectRegion [1/2, 1] (1/4) = Except.error NpError.indexError ∧
    generateSpawnPositions [[0, 1, 0]] [[(0, 0), (1, 0), (2, 0)]] 1 0 1
        (fun _ => 1/4) 0 = Except.error NpError.indexError := by
  constructor
  · with_unfolding_all decide
  · with_unfolding_all decide

section SingleRegion

lemma randint_lt {u : Rat} (h0 : 0 ≤ u) (h1 : u < 1) {n : Nat} (hn : 0 < n) :
    randintIdx u n < n := by
  unfold randintIdx
  have hnp : (0 : Rat) < (n : Rat) := by positivity
  have hlt : u * (n : Rat) < (n : Rat) := by
    calc u * (n : Rat) < 1 * (n : Rat) := by
          exact mul_lt_mul_of_pos_right h1 hnp
    _ = (n : Rat) := one_mul _
  have hf0 : (0 : Int) ≤ Int.floor (u * (n : Rat)) :=
    Int.floor_nonneg.mpr (by positivity)
  have hfl : Int.floor (u * (n : Rat)) < (n : Int) := by
    refine Int.floor_lt.mpr ?_
    push_cast
    exact hlt
  omega

lemma cellsEq_mem {F : Grid} {v : Int} {p : Pos} (hp : p ∈ cellsEq F v) :
    inB F p ∧ getC F p = v := by
  unfold cellsEq at hp
  rw [List.mem_filter] at hp
  exact ⟨mem_allPos.mp hp.1, by simpa using hp.2⟩

lemma spawnStep_single (F : Grid) (c : CoordGrid) (s : List Rat) (stream : Nat → Rat)
    (hs : ¬ 1 < s.length) (hne : cellsEq F 1 ≠ [])
    (hstream : ∀ k, 0 ≤ stream k ∧ stream k < 1) (t : Nat) (acc : List (Rat × Rat)) :
    ∃ q ∈ cellsEq F 1, spawnStep F c s stream (t, acc) =
      Except.ok (t + 1, acc ++ [coordGet c q]) := by
  have hlen : 0 < (cellsEq F 1).length := List.length_pos.mpr hne
  have hidx := randint_lt (hstream t).1 (hstream t).2 hlen
  refine ⟨(cellsEq F 1).getD (randintIdx (stream t) (cellsEq F 1).length) (0, 0), ?_, ?_⟩
  · rw [List.getD_eq_getElem _ _ hidx]
    exact List.getElem_mem hidx
  · have h0 : ¬ (cellsEq F 1).length = 0 := by omega
    unfold spawnStep
    rw [if_neg hs]
    simp [h0]

lemma spawnLoop_single (F : Grid) (c : CoordGrid) (s : List Rat) (stream : Nat → Rat)
    (hs : ¬ 1 < s.length) (hne : cellsEq F 1 ≠ [])
    (hstream : ∀ k, 0 ≤ stream k ∧ stream k < 1) :
    ∀ (n t : Nat) (acc : List (Rat × Rat)),
      ∃ ps, spawnLoop F c s stream n (t, acc) = Except.ok (t + n, acc ++ ps) ∧
        ∀ xy ∈ ps, ∃ q ∈ cellsEq F 1, xy = coordGet c q := by
  intro n
  induction n with
  | zero =>
    intro t acc
    exact ⟨[], by simp [spawnLoop], by simp⟩
  | succ n ih =>
    intro t acc
    obtain ⟨q, hq, hstep⟩ := spawnStep_single F c s stream hs hne hstream t acc
    obtain ⟨ps, hloop, hmem⟩ := ih (t + 1) (acc ++ [coordGet c q])
    refine ⟨coordGet c q :: ps, ?_, ?_⟩
    · simp only [spawnLoop, hstep, hloop]
      refine congrArg Except.ok (Prod.ext ?_ ?_)
      · omega
      · simp
    · intro xy hxy
      rcases List.mem_cons.mp hxy with rfl | hxy
      · exact ⟨q, hq, rfl⟩
      · exact hmem xy hxy

end SingleRegion

/-- C8: when exactly one region survives filtering, the sampling loop never
raises, never consumes a random draw for region selection (the stream cursor
advances by exactly one draw per position, the cell draw), and every sampled
position comes from a cell carrying the single region's label 1, regardless
of the values the random source produces. -/
theorem c8_single_region_shortcut (m : Grid) (c : CoordGrid) (n : Nat)
    (T prec : Rat) (stream : Nat → Rat) (t0 : Nat)
    (hR : Rect m) (hH : 0 < gridH m) (hW : 0 < gridW m)
    (hmax : gridMax (generateOccupancyMap m c T prec).1 = 1)
    (hstream : ∀ k, 0 ≤ stream k ∧ stream k < 1) :
    ∃ ps,
      spawnLoop (generateOccupancyMap m c T prec).1 c
          (spawnS (generateOccupancyMap m c T prec).1 prec) stream n (t0, []) =
        Except.ok (t0 + n, ps) ∧
      (∀ xy ∈ ps, ∃ q, inB (generateOccupancyMap m c T prec).1 q ∧
        getC (generateOccupancyMap m c T prec).1 q = 1 ∧ xy = coordGet c q) ∧
      generateSpawnPositions m c n T prec stream t0 =
        Except.ok (omOf (generateOccupancyMap m c T prec).1, c, ps) := by
  obtain ⟨R, _, hgh, hgw, hRectL, _, _, _, _, _⟩ := extract_full m hR
  set F := (generateOccupancyMap m c T prec).1 with hFdef
  have hFL : F = (filterRegions (extractAllRegions m) (prec ^ 2) T).1 := rfl
  have hFH : gridH F = gridH m := by rw [hFL, filter_gridH]; exact hgh
  have hFW : gridW F = gridW m := by rw [hFL, filter_gridW]; exact hgw
  have hFRect : Rect F := by rw [hFL]; exact filter_rect _ _ _ hRectL
  have hslen : (spawnS F prec).length = 1 := by
    unfold spawnS spawnAreas
    rw [cumsum_length, List.length_map, List.length_map, List.length_range, hmax]
    rfl
  have hs : ¬ 1 < (spawnS F prec).length := by omega
  have hne : cellsEq F 1 ≠ [] := by
    obtain ⟨⟨q, hq, he⟩, _⟩ := gridMax_spec F hFRect (by omega) (by omega)
    have hq1 : q ∈ cellsEq F 1 := by
      unfold cellsEq
      rw [List.mem_filter]
      refine ⟨mem_allPos.mpr hq, ?_⟩
      simp only [decide_eq_true_eq]
      rw [he, hmax]
    intro hc
    rw [hc] at hq1
    exact List.not_mem_nil q hq1
  obtain ⟨ps, hloop, hmem⟩ := spawnLoop_single F c (spawnS F prec) stream hs hne hstream n t0 []
  rw [List.nil_append] at hloop
  refine ⟨ps, hloop, ?_, ?_⟩
  · intro xy hxy
    obtain ⟨q, hq, he⟩ := hmem xy hxy
    obtain ⟨hqB, hq1⟩ := cellsEq_mem hq
    exact ⟨q, hqB, hq1, he⟩
  · unfold generateSpawnPositions
    rw [← hFdef, hloop]

theorem c8_witness :
    (Rect [[(0 : Int)]] ∧ 0 < gridH [[(0 : Int)]] ∧ 0 < gridW [[(0 : Int)]] ∧
      gridMax (generateOccupancyMap [[(0 : Int)]] [[((3 : Rat), (4 : Rat))]] 0 1).1 = 1 ∧
      (∀ k : Nat, 0 ≤ (fun (_ : Nat) => (0 : Rat)) k ∧ (fun (_ : Nat) => (0 : Rat)) k < 1)) ∧
    (∃ ps,
      spawnLoop (generateOccupancyMap [[(0 : Int)]] [[((3 : Rat), (4 : Rat))]] 0 1).1
          [[((3 : Rat), (4 : Rat))]]
          (spawnS (generateOccupancyMap [[(0 : Int)]] [[((3 : Rat), (4 : Rat))]] 0 1).1 1)
          (fun _ => 0) 1 (0, []) = Except.ok (0 + 1, ps) ∧
      (∀ xy ∈ ps, ∃ q,
        inB (generateOccupancyMap [[(0 : Int)]] [[((3 : Rat), (4 : Rat))]] 0 1).1 q ∧
        getC (generateOccupancyMap [[(0 : Int)]] [[((3 : Rat), (4 : Rat))]] 0 1).1 q = 1 ∧
        xy = coordGet [[((3 : Rat), (4 : Rat))]] q) ∧
      generateSpawnPositions [[(0 : Int)]] [[((3 : Rat), (4 : Rat))]] 1 0 1 (fun _ => 0) 0 =
        Except.ok
          (omOf (generateOccupancyMap [[(0 : Int)]] [[((3 : Rat), (4 : Rat))]] 0 1).1,
            [[((3 : Rat), (4 : Rat))]], ps)) := by
  have hmax : gridMax (generateOccupancyMap [[(0 : Int)]] [[((3 : Rat), (4 : Rat))]] 0 1).1 = 1 := by
    with_unfolding_all decide
  have hstream : ∀ k : Nat, 0 ≤ (fun (_ : Nat) => (0 : Rat)) k ∧
      (fun (_ : Nat) => (0 : Rat)) k < 1 := by
    intro k
    constructor <;> norm_num
  exact ⟨⟨by decide, by decide, by decide, hmax, hstream⟩,
    c8_single_region_shortcut [[(0 : Int)]] [[((3 : Rat), (4 : Rat))]] 1 0 1 (fun _ => 0) 0
      (by decide) (by decide) (by decide) hmax hstream⟩

section OccupancyOutput

/-- Read a cell of the floating-point occupancy mask. -/
def getR (g : List (List Rat)) (p : Pos) : Rat :=
  (g.getD p.1.toNat []).getD p.2.toNat 0

lemma getR_mapGrid (f : Int → Rat) {g : Grid} {p : Pos} (hR : Rect g) (hp : inB g p) :
    getR (g.map (List.map f)) p = f (getC g p) := by
  obtain ⟨h1, h2, h3, h4⟩ := hp
  have hi : p.1.toNat < g.length := by unfold gridH at h2; omega
  have hrow : (g.getD p.1.toNat []).length = gridW g := hR _ (row_mem_of_lt hi)
  have hj : p.2.toNat < (g.getD p.1.toNat []).length := by rw [hrow]; unfold gridW at *; omega
  have hi' : p.1.toNat < (g.map (List.map f)).length := by rw [List.length_map]; exact hi
  unfold getR getC
  rw [List.getD_eq_getElem _ _ hi', List.getElem_map]
  have hg : g[p.1.toNat] = g.getD p.1.toNat [] := (List.getD_eq_getElem _ _ hi).symm
  rw [hg]
  have hj' : p.2.toNat < (List.map f (g.getD p.1.toNat [])).length := by
    rw [List.length_map]; exact hj
  rw [List.getD_eq_getElem _ _ hj', List.getElem_map, List.getD_eq_getElem _ _ hj]

end OccupancyOutput

/-- C10: whenever `generateSpawnPositions` returns, the first component of the
returned triple is a grid with the same dimensions as the filtered label grid
whose value is 1.0 exactly at the cells whose filtered label is OCCUPIED_MARK
(`-1`) and 0.0 at every navigable cell; the positive region labels themselves
do not appear in the returned value. -/
theorem c10_occupancy_mask_output (m : Grid) (c : CoordGrid) (n : Nat)
    (T prec : Rat) (stream : Nat → Rat) (t0 : Nat)
    (hR : Rect m) {om : List (List Rat)} {c' : CoordGrid} {ps : List (Rat × Rat)}
    (h : generateSpawnPositions m c n T prec stream t0 = Except.ok (om, c', ps)) :
    c' = c ∧
    om.length = gridH (generateOccupancyMap m c T prec).1 ∧
    (∀ row ∈ om, row.length = gridW (generateOccupancyMap m c T prec).1) ∧
    (∀ p, inB (generateOccupancyMap m c T prec).1 p →
      getR om p =
        if getC (generateOccupancyMap m c T prec).1 p = -1 then (1 : Rat) else 0) := by
  obtain ⟨R, _, _, _, hRectL, _, _, _, _, _⟩ := extract_full m hR
  set F := (generateOccupancyMap m c T prec).1 with hFdef
  have hFL : F = (filterRegions (extractAllRegions m) (prec ^ 2) T).1 := rfl
  have hFRect : Rect F := by rw [hFL]; exact filter_rect _ _ _ hRectL
  unfold generateSpawnPositions at h
  rw [← hFdef] at h
  cases hloop : spawnLoop F c (spawnS F prec) stream n (t0, []) with
  | error e =>
    rw [hloop] at h
    exact absurd h (by simp)
  | ok st =>
    rw [hloop] at h
    have h2 : (omOf F, c, st.2) = (om, c', ps) := Except.ok.inj h
    have hom : om = omOf F := (congrArg Prod.fst h2).symm
    have hcc : c' = c := (congrArg (fun x => x.2.1) h2).symm
    refine ⟨hcc, ?_, ?_, ?_⟩
    · rw [hom]
      unfold omOf
      rw [List.length_map]
      rfl
    · intro row hrow
      rw [hom] at hrow
      unfold omOf at hrow
      obtain ⟨r, hr, rfl⟩ := List.mem_map.mp hrow
      rw [List.length_map]
      exact hFRect r hr
    · intro p hp
      rw [hom]
      unfold omOf
      rw [getR_mapGrid _ hFRect hp]

theorem c10_witness :
    (Rect [[(0 : Int)]] ∧
      generateSpawnPositions [[(0 : Int)]] [[((3 : Rat), (4 : Rat))]] 0 0 1 (fun _ => 0) 0 =
        Except.ok ([[(0 : Rat)]], [[((3 : Rat), (4 : Rat))]], [])) ∧
    ([[((3 : Rat), (4 : Rat))]] = [[((3 : Rat), (4 : Rat))]] ∧
      [[(0 : Rat)]].length =
        gridH (generateOccupancyMap [[(0 : Int)]] [[((3 : Rat), (4 : Rat))]] 0 1).1 ∧
      (∀ row ∈ [[(0 : Rat)]], row.length =
        gridW (generateOccupancyMap [[(0 : Int)]] [[((3 : Rat), (4 : Rat))]] 0 1).1) ∧
      (∀ p, inB (generateOccupancyMap [[(0 : Int)]] [[((3 : Rat), (4 : Rat))]] 0 1).1 p →
        getR [[(0 : Rat)]] p =
          if getC (generateOccupancyMap [[(0 : Int)]] [[((3 : Rat), (4 : Rat))]] 0 1).1 p = -1
          then (1 : Rat) else 0)) := by
  have hrun : generateSpawnPositions [[(0 : Int)]] [[((3 : Rat), (4 : Rat))]] 0 0 1
      (fun _ => 0) 0 = Except.ok ([[(0 : Rat)]], [[((3 : Rat), (4 : Rat))]], []) := by
    with_unfolding_all decide
  exact ⟨⟨by decide, hrun⟩,
    c10_occupancy_mask_output [[(0 : Int)]] [[((3 : Rat), (4 : Rat))]] 0 0 1 (fun _ => 0) 0
      (by decide) hrun⟩
